import Mathlib

/-!
Verification of the carton-packing subsystem of `smart_app.py` (FC-bid).

The Python code is a Flask app over SQLite.  We embed the packing state as a
`DB` record of table rows and each route handler as a function from `DB` (plus
request parameters) to a new `DB` and a result.  A handler that raises or
returns an error response before `conn.commit()` leaves the database unchanged,
so such paths return the input `DB` untouched.

String values are kept as Lean `String`s, and all string manipulation is done
on the underlying character lists so that every definition evaluates inside the
kernel.  Carton numbers are stored as strings (the `carton_number` columns are
TEXT and the code stores `str(count + 1)`), so SQL `ORDER BY` and Python
`sorted` compare them lexicographically; the embedding does the same.
-/

deriving instance DecidableEq for Except

namespace SmartApp

/-! ### String primitives (character-list based) -/

/-- Lexicographic strict order on character lists, matching both Python string
comparison and SQLite's BINARY collation on (ASCII) TEXT values. -/
def listLtB : List Char → List Char → Bool
  | [], [] => false
  | [], _ :: _ => true
  | _ :: _, [] => false
  | a :: as, b :: bs => if a = b then listLtB as bs else decide (a < b)

/-- Strict `<` on strings. -/
def strLtB (a b : String) : Bool := listLtB a.data b.data

/-- Non-strict `≤` on strings (totality of the underlying order makes
`¬ (b < a)` the right definition). -/
def strLeB (a b : String) : Bool := ! strLtB b a

/-- Whitespace characters removed by Python `str.strip()` (the ASCII ones;
the inputs at hand are ASCII). -/
def isSpaceChar (c : Char) : Bool :=
  c = ' ' || c = '\t' || c = '\n' || c = '\r' || c = '\x0b' || c = '\x0c'

/-- Python `str.strip()`. -/
def pyStrip (s : String) : String :=
  String.mk (((s.data.dropWhile isSpaceChar).reverse.dropWhile isSpaceChar).reverse)

/-- Python `s.replace(',', '')`. -/
def removeCommas (s : String) : String :=
  String.mk (s.data.filter (fun c => ! decide (c = ',')))

/-- Numeric value of a decimal digit character, if it is one. -/
def digitVal (c : Char) : Option Nat :=
  if '0' ≤ c ∧ c ≤ '9' then some (c.toNat - '0'.toNat) else none

/-- Accumulating decimal parse of a character list; `none` when empty or when a
non-digit appears. -/
def natOfDigits : List Char → Option Nat → Option Nat
  | [], acc => acc
  | c :: cs, acc =>
    match digitVal c with
    | some d => natOfDigits cs (some ((acc.getD 0) * 10 + d))
    | none => none

/-- Python `int(s)`: strip whitespace, optional sign, then a non-empty run of
decimal digits; anything else raises `ValueError` (here: `none`).  (Python
additionally allows underscore digit grouping, which never occurs in this
code's data and is not modelled.) -/
def pyInt (s : String) : Option Int :=
  match (pyStrip s).data with
  | '-' :: rest => (natOfDigits rest none).map (fun n => -(n : Int))
  | '+' :: rest => (natOfDigits rest none).map (fun n => (n : Int))
  | t => (natOfDigits t none).map (fun n => (n : Int))

/-- Python `str(i)` for an int. -/
def intStr (i : Int) : String :=
  if i < 0 then "-" ++ Nat.repr i.natAbs else Nat.repr i.natAbs

/-- Left-pad with `'0'` to width `w` (for `f"{n:07d}"`). -/
def padZeros (w : Nat) (s : String) : String :=
  if s.data.length < w then String.mk (List.replicate (w - s.data.length) '0') ++ s else s

/-- Insert into a `le`-sorted list (stable). -/
def insertLe {α : Type} (le : α → α → Bool) (x : α) : List α → List α
  | [] => [x]
  | y :: ys => if le x y then x :: y :: ys else y :: insertLe le x ys

/-- Stable insertion sort, used to model SQL `ORDER BY` and Python `sorted`. -/
def sortLe {α : Type} (le : α → α → Bool) : List α → List α
  | [] => []
  | x :: xs => insertLe le x (sortLe le xs)

/-- First-occurrence deduplication with an accumulator of already-seen
values (structural, so it evaluates inside the kernel). -/
def dedupSeen (seen : List String) : List String → List String
  | [] => []
  | x :: xs => if x ∈ seen then dedupSeen seen xs else x :: dedupSeen (x :: seen) xs

/-- First-occurrence deduplication; `sortLe strLeB (dedupKF l)` models Python's
`sorted(set(l))` (the distinct values of `l` in ascending order). -/
def dedupKF (l : List String) : List String := dedupSeen [] l

/-- Association-list lookup (first match). -/
def alookup {β : Type} (k : String) : List (String × β) → Option β
  | [] => none
  | (a, b) :: rest => if a = k then some b else alookup k rest

/-! ### Data model

One record type per SQLite table touched by the packing workflow (columns not
read or written by any modelled handler are omitted).  `po_items.qty` is a TEXT
column, so the ordered quantity is a string; `carton_items.packed_qty` and
`original_qty` are INTEGER columns fed from JSON numbers, so they are `Int`. -/

/-- A `po_items` row (the Item Ledger). -/
structure ItemRow where
  po_number : String
  item_number : String
  description : String
  color : String
  qty : String
  packed_status : String
  carton_number : Option String
  pl_number : Option String
deriving Repr, DecidableEq

/-- A `cartons` row.  `actual_weight` holds the output of
`clean_number_format`, i.e. a numeric string. -/
structure CartonRow where
  id : Nat
  po_number : String
  carton_number : String
  carton_size : String
  actual_weight : String
  barcode : String
  packing_option : String
deriving Repr, DecidableEq

/-- A `carton_items` row. -/
structure CartonItemRow where
  carton_id : Nat
  po_number : String
  item_number : String
  description : String
  color : String
  packed_qty : Int
  original_qty : Int
deriving Repr, DecidableEq

/-- A `packing_lists` row. -/
structure PackingListRow where
  pl_number : String
  po_number : String
  total_cartons : Nat
  total_items : Nat
  total_qty : Int
deriving Repr, DecidableEq

/-- The packing-relevant database state.  `next_carton_id` models the
`AUTOINCREMENT` sequence of the `cartons` table (`cursor.lastrowid`); it is
monotone and survives `reset_database`, which is exactly SQLite's behaviour
for an AUTOINCREMENT primary key. -/
structure DB where
  po_items : List ItemRow
  cartons : List CartonRow
  carton_items : List CartonItemRow
  packing_lists : List PackingListRow
  next_carton_id : Nat
deriving Repr, DecidableEq

/-- Cartons recorded for a PO (the `SELECT COUNT(*) FROM cartons WHERE
po_number = ?` left-hand side). -/
def cartonsForPo (db : DB) (po : String) : List CartonRow :=
  db.cartons.filter (fun c => decide (c.po_number = po))

/-- Items of a PO in the ledger. -/
def itemsForPo (db : DB) (po : String) : List ItemRow :=
  db.po_items.filter (fun r => decide (r.po_number = po))

/-- Items of a PO whose `packed_status` is `'packed'`. -/
def packedItemsForPo (db : DB) (po : String) : List ItemRow :=
  db.po_items.filter (fun r => decide (r.po_number = po) && decide (r.packed_status = "packed"))

/-! ### `/api/simple_packing/reset_database` -/

/-- `reset_database`: deletes every `carton_items` and `cartons` row and resets
every item to `'not_packed'` with no carton.  (It does not touch
`packing_lists` nor the items' `pl_number` stamps, and the AUTOINCREMENT
sequence keeps counting.) -/
def reset_database (db : DB) : DB :=
  { db with
    carton_items := [],
    cartons := [],
    po_items := db.po_items.map (fun r =>
      { r with packed_status := "not_packed", carton_number := none }) }

/-! ### `/api/simple_packing/mark_all_done` -/

/-- `mark_all_done`: runs `UPDATE po_items SET packed_status = 'done' WHERE
po_number = ?` and reports `cursor.rowcount`.  The `UPDATE` has no status
filter, so every row of the PO is set to `'done'` — including rows already
`'packed'` — and SQLite counts every touched row, value changed or not. -/
def mark_all_done (db : DB) (po0 : String) : DB × Except String Nat :=
  let po := pyStrip po0
  if po = "" then (db, .error "PO number is required")
  else
    let updated_count := (itemsForPo db po).length
    ({ db with po_items := db.po_items.map (fun r =>
        if r.po_number = po then { r with packed_status := "done" } else r) },
     .ok updated_count)

/-! ### `/api/simple_packing/pack_items` -/

/-- One element of the request's `selected_items` list.  The JSON quantity is a
number here; the handler copies it into both `packed_qty` and `original_qty`. -/
structure SelItem where
  item_number : String
  description : String
  color : String
  qty : Int
deriving Repr, DecidableEq

/-- Successful response payload of `pack_items`. -/
structure PackResult where
  carton_number : String
  barcode : String
  packed_items_count : Nat
deriving Repr, DecidableEq

/-- Loop body of `pack_items`: set the matching ledger rows to `'packed'` with
the carton number, and insert one `carton_items` row. -/
def packOne (po cn : String) (cid : Nat) (it : SelItem) (db : DB) : DB :=
  { db with
    po_items := db.po_items.map (fun r =>
      if r.po_number = po ∧ r.item_number = it.item_number then
        { r with packed_status := "packed", carton_number := some cn }
      else r),
    carton_items := db.carton_items ++
      [{ carton_id := cid, po_number := po, item_number := it.item_number,
         description := it.description, color := it.color,
         packed_qty := it.qty, original_qty := it.qty }] }

/-- The `for item_data in selected_items` loop.  An entry that is not a dict
(`none` here) raises `AttributeError` on `.get`, aborting the whole request
before `conn.commit()`. -/
def packLoop (po cn : String) (cid : Nat) : List (Option SelItem) → DB → Except String DB
  | [], db => .ok db
  | none :: _, _ => .error "Pack items error"
  | some it :: rest, db => packLoop po cn cid rest (packOne po cn cid it db)

/-- `pack_items_simple`: validates `po_number`, `selected_items` and
`carton_type` (but not `carton_weight`), computes the next carton number as
`COUNT(cartons for the PO) + 1`, inserts the carton, then packs each selected
item; a single `conn.commit()` at the end makes the whole unit durable, so any
error path returns the original `DB`.  `carton_weight` arrives through
`float(...)`, modelled as an `Int` argument (`clean_number_format` of a number
is just its decimal string); `today` stands for `datetime.now().strftime('%Y%m%d')`. -/
def pack_items_simple (db : DB) (po0 : String) (selected : List (Option SelItem))
    (carton_type0 : String) (carton_weight : Int) (today : String) :
    DB × Except String PackResult :=
  let po := pyStrip po0
  let carton_type := pyStrip carton_type0
  if po = "" ∨ selected.isEmpty ∨ carton_type = "" then
    (db, .error "Missing required fields")
  else
    let existing_count := (cartonsForPo db po).length
    let carton_number := Nat.repr (existing_count + 1)
    let barcode := po ++ "-" ++ carton_number ++ "-" ++ today
    let carton_id := db.next_carton_id
    let staged : DB := { db with
      cartons := db.cartons ++
        [{ id := carton_id, po_number := po, carton_number := carton_number,
           carton_size := carton_type, actual_weight := intStr carton_weight,
           barcode := barcode, packing_option := "Option A" }],
      next_carton_id := carton_id + 1 }
    match packLoop po carton_number carton_id selected staged with
    | .error e => (db, .error e)
    | .ok staged' =>
      (staged', .ok { carton_number := carton_number, barcode := barcode,
                      packed_items_count := selected.length })

/-! ### `/api/simple_packing/check_completion` -/

/-- Response payload of `check_completion`. -/
structure CompletionResult where
  is_complete : Bool
  total_items : Nat
  packed_items : Nat
  remaining_items : Nat
deriving Repr, DecidableEq

/-- `check_completion`: two `COUNT(*)` queries; `is_complete = total_items > 0
and packed_items == total_items`; `remaining_items = total_items -
packed_items` (never negative, as the packed rows are a sub-filter of the
total).  Read-only. -/
def check_completion (db : DB) (po0 : String) : Except String CompletionResult :=
  let po := pyStrip po0
  if po = "" then .error "PO number is required"
  else
    let total_items := (itemsForPo db po).length
    let packed_items := (packedItemsForPo db po).length
    .ok { is_complete := decide (total_items > 0) && decide (packed_items = total_items),
          total_items := total_items, packed_items := packed_items,
          remaining_items := total_items - packed_items }

/-! ### Packing-list number generation -/

/-- `f"PL{n:07d}"`: the prefix `PL` followed by the integer zero-padded to
width 7 (a sign counts toward the width, as in Python). -/
def plFormat (n : Int) : String :=
  if n < 0 then "PL" ++ "-" ++ padZeros 6 (Nat.repr n.natAbs)
  else "PL" ++ padZeros 7 (Nat.repr n.natAbs)

/-- SQL `MAX` over TEXT values (BINARY collation = lexicographic). -/
def strMax? (xs : List String) : Option String :=
  xs.foldl (fun acc x =>
    match acc with
    | none => some x
    | some m => if strLtB m x then some x else some m) none

/-- `generate_pl_number`: reads `MAX(pl_number)` over the whole
`packing_lists` table; if none (or the empty string, which Python treats as
falsy), starts at 1, else parses the digits after `PL` and increments.  A
malformed stored number makes `int(...)` raise, failing the request. -/
def generate_pl_number (db : DB) : Except String String :=
  match strMax? (db.packing_lists.map (fun p => p.pl_number)) with
  | none => .ok (plFormat 1)
  | some m =>
    if m = "" then .ok (plFormat 1)
    else
      match pyInt (String.mk (m.data.drop 2)) with
      | none => .error "invalid literal for int()"
      | some v => .ok (plFormat (v + 1))

/-! ### Packing-list rendering -/

/-- One row of the `SELECT carton_number, item_number, description, color, qty
FROM po_items ...` result set. -/
structure PackedRow where
  carton_number : String
  item_number : String
  description : String
  color : String
  qty : String
deriving Repr, DecidableEq

/-- `ORDER BY carton_number ASC, item_number ASC` on TEXT columns. -/
def rowLe (a b : PackedRow) : Bool :=
  if a.carton_number = b.carton_number then strLeB a.item_number b.item_number
  else strLtB a.carton_number b.carton_number

/-- The packed-items query of the renderer: packed rows of the PO with a
non-NULL carton number, sorted. -/
def packedItemsQuery (db : DB) (po : String) : List PackedRow :=
  sortLe rowLe ((db.po_items.filter (fun r =>
      decide (r.po_number = po) && decide (r.packed_status = "packed") && r.carton_number.isSome)).map
    (fun r => { carton_number := r.carton_number.getD "", item_number := r.item_number,
                description := r.description, color := r.color, qty := r.qty }))

/-- The carton-details query: `carton_number ↦ (size, weight)`.  The Python
dict comprehension lets a later duplicate key overwrite an earlier one, hence
the lookup below scans from the end. -/
def cartonDetailsQuery (db : DB) (po : String) : List (String × String × String) :=
  (sortLe (fun a b => strLeB a.carton_number b.carton_number) (cartonsForPo db po)).map
    (fun c => (c.carton_number, c.carton_size, c.actual_weight))

/-- Dict-style lookup into the details list (last binding wins). -/
def detailLookup (details : List (String × String × String)) (k : String) :
    Option (String × String) :=
  (alookup k (details.reverse.map (fun d => (d.1, d.2))))

/-- Sum of the parsed quantities: `int(str(qty).replace(',', ''))`, a failed
parse contributing nothing. -/
def qtyTotal (rows : List PackedRow) : Int :=
  rows.foldl (fun acc r =>
    match pyInt (removeCommas r.qty) with
    | some q => acc + q
    | none => acc) 0

/-- One carton block of the printable list: the "merged cell" header (number,
size, weight) and its item rows. -/
structure CartonGroup where
  carton_number : String
  carton_size : String
  carton_weight : String
  items : List PackedRow
deriving Repr, DecidableEq

/-- The rendered packing-list document: the structured content of the HTML the
app emits (groups in `sorted(keys)` order, plus the three totals the template
computes from the row list). -/
structure RenderedDoc where
  pl_number : String
  po_number : String
  groups : List CartonGroup
  total_cartons : Nat
  total_items : Nat
  total_qty : Int
deriving Repr, DecidableEq

/-- `generate_professional_packing_list_html`: groups the rows by carton
number, iterates the keys in sorted order, and computes
`total_cartons = len(set(carton numbers))`, `total_items = len(rows)` and the
parsed quantity total. -/
def generate_professional_packing_list_html (po : String) (rows : List PackedRow)
    (details : List (String × String × String)) (pl : String) : RenderedDoc :=
  let keys := sortLe strLeB (dedupKF (rows.map (fun r => r.carton_number)))
  { pl_number := pl, po_number := po,
    groups := keys.map (fun k =>
      let d := detailLookup details k
      { carton_number := k,
        carton_size := (d.map (fun p => p.1)).getD "Unknown",
        carton_weight := (d.map (fun p => p.2)).getD "0",
        items := rows.filter (fun r => decide (r.carton_number = k)) }),
    total_cartons := (dedupKF (rows.map (fun r => r.carton_number))).length,
    total_items := rows.length,
    total_qty := qtyTotal rows }

/-- `generate_pdf_packing_list`: allocates a PL number, loads the packed rows,
and — when there are any — renumbers the distinct carton numbers to
`1..N` (in ascending order of the stored strings) *in the local lists only*,
inserts one `packing_lists` row with the totals, stamps `pl_number` on every
packed item of the PO, commits, and renders.  With no packed rows it skips the
whole block and renders an empty document without writing anything. -/
def generate_pdf_packing_list (db : DB) (po0 : String) : DB × Except String RenderedDoc :=
  let po := pyStrip po0
  if po = "" then (db, .error "PO number is required")
  else
    match generate_pl_number db with
    | .error e => (db, .error e)
    | .ok pl_number =>
      let packed_items := packedItemsQuery db po
      let carton_details := cartonDetailsQuery db po
      if packed_items.isEmpty then
        (db, .ok (generate_professional_packing_list_html po packed_items carton_details pl_number))
      else
        let unique_cartons := sortLe strLeB (dedupKF (packed_items.map (fun r => r.carton_number)))
        let carton_mapping := unique_cartons.enum.map (fun p => (p.2, Nat.repr (p.1 + 1)))
        let updated_packed_items := packed_items.map (fun r =>
          { r with carton_number := (alookup r.carton_number carton_mapping).getD r.carton_number })
        let updated_carton_details := carton_mapping.filterMap (fun p =>
          (detailLookup carton_details p.1).map (fun d => (p.2, d.1, d.2)))
        let total_cartons := unique_cartons.length
        let total_items := packed_items.length
        let total_qty := qtyTotal packed_items
        let db' : DB := { db with
          packing_lists := db.packing_lists ++
            [{ pl_number := pl_number, po_number := po, total_cartons := total_cartons,
               total_items := total_items, total_qty := total_qty }],
          po_items := db.po_items.map (fun r =>
            if r.po_number = po ∧ r.packed_status = "packed" then
              { r with pl_number := some pl_number }
            else r) }
        (db', .ok (generate_professional_packing_list_html po updated_packed_items
          updated_carton_details pl_number))

/-- `download_pdf_by_pl`: re-fetches a stored packing list.  Looks the
`pl_number` up, reloads the items stamped with it, substitutes placeholder
carton details (`'Medium'`, `2.5`), and renders — with *no* renumbering and
*no* database write.  (Items stamped but with a NULL carton number would make
the Python sort raise; they are read as the empty string here, which sorts
first just as SQLite sorts NULLs first.) -/
def download_pdf_by_pl (db : DB) (pl0 : String) : Except String RenderedDoc :=
  let pl := pyStrip pl0
  if pl = "" then .error "PL number is required"
  else
    match db.packing_lists.find? (fun p => decide (p.pl_number = pl)) with
    | none => .error "Packing list not found"
    | some pl_row =>
      let po := pl_row.po_number
      let packed_items := sortLe rowLe ((db.po_items.filter (fun r =>
          decide (r.pl_number = some pl) && decide (r.packed_status = "packed"))).map
        (fun r => { carton_number := r.carton_number.getD "", item_number := r.item_number,
                    description := r.description, color := r.color, qty := r.qty }))
      let unique_cartons := dedupKF (packed_items.map (fun r => r.carton_number))
      let carton_details := unique_cartons.map (fun c => (c, "Medium", "2.5"))
      .ok (generate_professional_packing_list_html po packed_items carton_details pl)

/-! ### `/api/po_management/get_carton_summary` -/

/-- One item row inside a carton summary. -/
structure SummaryItem where
  item_number : String
  description : String
  color : String
  packed_qty : Int
  original_qty : Int
deriving Repr, DecidableEq

/-- One carton of the summary response. -/
structure CartonSummary where
  id : Nat
  carton_number : String
  barcode : String
  weight : String
  size : String
  packing_option : String
  items : List SummaryItem
  total_qty : Int
deriving Repr, DecidableEq

/-- `get_carton_summary`: cartons of the PO ordered by carton number, each with
its `carton_items` rows and their summed `packed_qty`.  Read-only. -/
def get_carton_summary (db : DB) (po0 : String) : Except String (List CartonSummary) :=
  let po := pyStrip po0
  if po = "" then .error "PO number is required"
  else
    .ok ((sortLe (fun a b => strLeB a.carton_number b.carton_number)
        (cartonsForPo db po)).map (fun c =>
      let items := (db.carton_items.filter (fun r => decide (r.carton_id = c.id))).map
        (fun r => { item_number := r.item_number, description := r.description,
                    color := r.color, packed_qty := r.packed_qty,
                    original_qty := r.original_qty : SummaryItem })
      { id := c.id, carton_number := c.carton_number, barcode := c.barcode,
        weight := c.actual_weight, size := c.carton_size,
        packing_option := c.packing_option, items := items,
        total_qty := items.foldl (fun acc it => acc + it.packed_qty) 0 }))

/-! ### Library lemmas: sorting, deduplication, lookup, stripping -/

theorem insertLe_perm {α : Type} (le : α → α → Bool) (x : α) (l : List α) :
    (insertLe le x l).Perm (x :: l) := by
  induction l with
  | nil => simp [insertLe]
  | cons y ys ih =>
    simp only [insertLe]
    by_cases h : le x y = true
    · simp [h]
    · simp only [h]
      exact ((ih.cons y).trans (List.Perm.swap x y ys))

theorem sortLe_perm {α : Type} (le : α → α → Bool) (l : List α) :
    (sortLe le l).Perm l := by
  induction l with
  | nil => simp [sortLe]
  | cons x xs ih => exact (insertLe_perm le x (sortLe le xs)).trans (ih.cons x)

theorem mem_sortLe {α : Type} (le : α → α → Bool) (l : List α) (a : α) :
    a ∈ sortLe le l ↔ a ∈ l :=
  (sortLe_perm le l).mem_iff

theorem length_sortLe {α : Type} (le : α → α → Bool) (l : List α) :
    (sortLe le l).length = l.length :=
  (sortLe_perm le l).length_eq

theorem mem_dedupSeen (a : String) :
    ∀ (l seen : List String), a ∈ dedupSeen seen l ↔ (a ∈ l ∧ a ∉ seen) := by
  intro l
  induction l with
  | nil => intro seen; simp [dedupSeen]
  | cons x xs ih =>
    intro seen
    by_cases hx : x ∈ seen
    · rw [dedupSeen, if_pos hx, ih seen]
      constructor
      · exact fun ⟨h1, h2⟩ => ⟨List.mem_cons_of_mem _ h1, h2⟩
      · rintro ⟨h1, h2⟩
        rcases List.mem_cons.mp h1 with h | h
        · exact absurd (h ▸ hx) h2
        · exact ⟨h, h2⟩
    · rw [dedupSeen, if_neg hx]
      constructor
      · intro h
        rcases List.mem_cons.mp h with h | h
        · exact ⟨h ▸ List.mem_cons_self _ _, h ▸ hx⟩
        · obtain ⟨h1, h2⟩ := (ih (x :: seen)).mp h
          exact ⟨List.mem_cons_of_mem _ h1,
            fun hc => h2 (List.mem_cons_of_mem _ hc)⟩
      · rintro ⟨h1, h2⟩
        rcases List.mem_cons.mp h1 with h | h
        · exact h ▸ List.mem_cons_self _ _
        · by_cases hax : a = x
          · exact hax ▸ List.mem_cons_self _ _
          · exact List.mem_cons_of_mem _ ((ih (x :: seen)).mpr
              ⟨h, fun hc => by
                rcases List.mem_cons.mp hc with hc | hc
                · exact hax hc
                · exact h2 hc⟩)

theorem mem_dedupKF (l : List String) (a : String) : a ∈ dedupKF l ↔ a ∈ l := by
  rw [dedupKF, mem_dedupSeen]
  simp

theorem nodup_dedupSeen : ∀ (l seen : List String), (dedupSeen seen l).Nodup := by
  intro l
  induction l with
  | nil => intro seen; simp [dedupSeen]
  | cons x xs ih =>
    intro seen
    by_cases hx : x ∈ seen
    · rw [dedupSeen, if_pos hx]
      exact ih seen
    · rw [dedupSeen, if_neg hx]
      refine List.nodup_cons.mpr ⟨fun hmem => ?_, ih (x :: seen)⟩
      exact ((mem_dedupSeen x xs (x :: seen)).mp hmem).2 (List.mem_cons_self _ _)

theorem nodup_dedupKF (l : List String) : (dedupKF l).Nodup := nodup_dedupSeen l []

theorem dedupSeen_map_inj (φ : String → String) :
    ∀ (l seen : List String),
      (∀ a ∈ seen ++ l, ∀ b ∈ seen ++ l, φ a = φ b → a = b) →
      dedupSeen (seen.map φ) (l.map φ) = (dedupSeen seen l).map φ := by
  intro l
  induction l with
  | nil => intro seen _; rfl
  | cons x xs ih =>
    intro seen hinj
    have hx_mem : x ∈ seen ++ x :: xs := List.mem_append.mpr (Or.inr (List.mem_cons_self _ _))
    have hmem_iff : φ x ∈ seen.map φ ↔ x ∈ seen := by
      constructor
      · intro h
        obtain ⟨s, hs, hφs⟩ := List.mem_map.mp h
        have : s = x := hinj s (List.mem_append.mpr (Or.inl hs)) x hx_mem hφs
        exact this ▸ hs
      · exact fun h => List.mem_map_of_mem φ h
    by_cases hx : x ∈ seen
    · rw [List.map_cons, dedupSeen, if_pos (hmem_iff.mpr hx), dedupSeen, if_pos hx]
      apply ih seen
      intro a ha b hb
      have hsub : ∀ c, c ∈ seen ++ xs → c ∈ seen ++ x :: xs := by
        intro c hc
        rcases List.mem_append.mp hc with h | h
        · exact List.mem_append.mpr (Or.inl h)
        · exact List.mem_append.mpr (Or.inr (List.mem_cons_of_mem _ h))
      exact hinj a (hsub a ha) b (hsub b hb)
    · rw [List.map_cons, dedupSeen, if_neg (fun hc => hx (hmem_iff.mp hc)),
        dedupSeen, if_neg hx, List.map_cons]
      congr 1
      have hstep : (x :: seen).map φ = φ x :: seen.map φ := rfl
      rw [← hstep]
      apply ih (x :: seen)
      intro a ha b hb
      have hsub : ∀ c, c ∈ (x :: seen) ++ xs → c ∈ seen ++ x :: xs := by
        intro c hc
        rcases List.mem_cons.mp hc with h | h
        · exact h ▸ hx_mem
        · rcases List.mem_append.mp h with h | h
          · exact List.mem_append.mpr (Or.inl h)
          · exact List.mem_append.mpr (Or.inr (List.mem_cons_of_mem _ h))
      exact hinj a (hsub a ha) b (hsub b hb)

theorem dedupKF_map_inj (φ : String → String) (l : List String)
    (hinj : ∀ a ∈ l, ∀ b ∈ l, φ a = φ b → a = b) :
    dedupKF (l.map φ) = (dedupKF l).map φ := by
  rw [dedupKF, dedupKF]
  have h0 : (([] : List String).map φ) = [] := rfl
  rw [← h0]
  apply dedupSeen_map_inj φ l []
  intro a ha b hb
  exact hinj a (by simpa using ha) b (by simpa using hb)

/-! ### Library lemmas: decimal representation (`Nat.repr`) -/

/-- The digit characters of `n` in order, as produced by `Nat.toDigitsCore`
once the fuel is large enough. -/
def decChars (n : Nat) : List Char :=
  if _h : n < 10 then [Nat.digitChar n]
  else decChars (n / 10) ++ [Nat.digitChar (n % 10)]
termination_by n
decreasing_by exact Nat.div_lt_self (by omega) (by omega)

theorem toDigitsCore_eq_decChars :
    ∀ (fuel n : Nat) (ds : List Char), n < fuel →
      Nat.toDigitsCore 10 fuel n ds = decChars n ++ ds := by
  intro fuel
  induction fuel with
  | zero => intro n ds h; omega
  | succ f ih =>
    intro n ds h
    have hstep : Nat.toDigitsCore 10 (f + 1) n ds =
        if n / 10 = 0 then Nat.digitChar (n % 10) :: ds
        else Nat.toDigitsCore 10 f (n / 10) (Nat.digitChar (n % 10) :: ds) := by
      show (if n / 10 = 0 then Nat.digitChar (n % 10) :: ds
        else Nat.toDigitsCore 10 f (n / 10) (Nat.digitChar (n % 10) :: ds)) = _
      rfl
    by_cases h0 : n / 10 = 0
    · have hlt : n < 10 := by omega
      rw [hstep, if_pos h0, decChars, dif_pos hlt, Nat.mod_eq_of_lt hlt,
        List.singleton_append]
    · have hlt_f : n / 10 < f := by omega
      rw [hstep, if_neg h0, ih (n / 10) (Nat.digitChar (n % 10) :: ds) hlt_f]
      conv_rhs => rw [decChars]
      rw [dif_neg (show ¬ n < 10 by omega), List.append_assoc, List.singleton_append]

theorem nat_repr_eq_decChars (n : Nat) : Nat.repr n = String.mk (decChars n) := by
  have h : Nat.repr n = (Nat.toDigitsCore 10 (n + 1) n []).asString := rfl
  rw [h, toDigitsCore_eq_decChars (n + 1) n [] (Nat.lt_succ_self n), List.append_nil]
  rfl

theorem digitChar_val {n : Nat} (h : n < 10) : (Nat.digitChar n).toNat - 48 = n := by
  interval_cases n <;> rfl

/-- Reading the digit characters back as a number. -/
def digitsStep (a : Nat) (c : Char) : Nat := a * 10 + (c.toNat - 48)

theorem foldl_decChars (n : Nat) :
    ∀ a : Nat, List.foldl digitsStep a (decChars n) = a * 10 ^ (decChars n).length + n := by
  induction n using Nat.strong_induction_on with
  | _ n ih =>
    intro a
    by_cases h : n < 10
    · rw [decChars, dif_pos h]
      simp [digitsStep, digitChar_val h]
    · rw [decChars, dif_neg h]
      rw [List.foldl_append]
      have hdiv : n / 10 < n := Nat.div_lt_self (by omega) (by omega)
      rw [ih (n / 10) hdiv a]
      have hmod : n % 10 < 10 := Nat.mod_lt n (by omega)
      have hlen : (decChars (n / 10) ++ [Nat.digitChar (n % 10)]).length =
          (decChars (n / 10)).length + 1 := by simp
      rw [hlen]
      simp only [List.foldl_cons, List.foldl_nil, digitsStep, digitChar_val hmod]
      have key : n / 10 * 10 + n % 10 = n := by omega
      calc (a * 10 ^ (decChars (n / 10)).length + n / 10) * 10 + n % 10
          = a * (10 ^ (decChars (n / 10)).length * 10) + (n / 10 * 10 + n % 10) := by ring
        _ = a * 10 ^ ((decChars (n / 10)).length + 1) + n := by rw [key, Nat.pow_succ]

theorem decChars_val (n : Nat) : List.foldl digitsStep 0 (decChars n) = n := by
  rw [foldl_decChars]
  simp

theorem nat_repr_injective : ∀ m n : Nat, Nat.repr m = Nat.repr n → m = n := by
  intro m n h
  rw [nat_repr_eq_decChars, nat_repr_eq_decChars] at h
  have hd : decChars m = decChars n := congrArg String.data h
  have := congrArg (List.foldl digitsStep 0) hd
  rwa [decChars_val, decChars_val] at this

/-! ### Library lemmas: stripping is idempotent -/

theorem dropWhile_idem (p : Char → Bool) (l : List Char) :
    (l.dropWhile p).dropWhile p = l.dropWhile p := by
  induction l with
  | nil => rfl
  | cons x xs ih =>
    by_cases h : p x = true
    · simp [List.dropWhile_cons, h, ih]
    · simp [List.dropWhile_cons, h]

theorem dropWhile_eq_drop (p : Char → Bool) (l : List Char) :
    ∃ k, l.dropWhile p = l.drop k := by
  induction l with
  | nil => exact ⟨0, rfl⟩
  | cons x xs ih =>
    by_cases h : p x = true
    · obtain ⟨k, hk⟩ := ih
      exact ⟨k + 1, by simp [List.dropWhile_cons, h, hk]⟩
    · exact ⟨0, by simp [List.dropWhile_cons, h]⟩

theorem dropWhile_take (p : Char → Bool) (l : List Char) (hl : l.dropWhile p = l) (k : Nat) :
    (l.take k).dropWhile p = l.take k := by
  cases l with
  | nil => simp
  | cons x xs =>
    have hpx : p x = false := by
      cases hpx' : p x
      · rfl
      · exfalso
        rw [List.dropWhile_cons, if_pos hpx'] at hl
        obtain ⟨j, hj⟩ := dropWhile_eq_drop p xs
        rw [hj] at hl
        have := congrArg List.length hl
        simp [List.length_drop] at this
        omega
    cases k with
    | zero => simp
    | succ k => simp [List.take, List.dropWhile_cons, hpx]

theorem drop_reverse_eq (l : List Char) :
    ∀ k : Nat, (l.reverse.drop k).reverse = l.take (l.length - k) := by
  induction l using List.reverseRecOn with
  | nil => intro k; simp
  | append_singleton xs x ih =>
    intro k
    cases k with
    | zero => simp
    | succ k =>
      rw [List.reverse_append]
      simp only [List.reverse_cons, List.reverse_nil, List.nil_append,
        List.singleton_append, List.drop_succ_cons]
      rw [ih k]
      have h1 : (xs ++ [x]).length - (k + 1) = xs.length - k := by simp
      rw [h1, List.take_append_of_le_length (Nat.sub_le _ _)]

theorem pyStrip_idem (s : String) : pyStrip (pyStrip s) = pyStrip s := by
  unfold pyStrip
  set p := isSpaceChar with hp
  set a := s.data.dropWhile p with ha
  have hdata : (String.mk ((a.reverse.dropWhile p).reverse)).data =
      (a.reverse.dropWhile p).reverse := rfl
  rw [hdata]
  set m := (a.reverse.dropWhile p).reverse with hm
  have haa : a.dropWhile p = a := by rw [ha]; exact dropWhile_idem p _
  have hm_take : ∃ k, m = a.take (a.length - k) := by
    obtain ⟨k, hk⟩ := dropWhile_eq_drop p a.reverse
    exact ⟨k, by rw [hm, hk]; exact drop_reverse_eq a k⟩
  have step1 : m.dropWhile p = m := by
    obtain ⟨k, hk⟩ := hm_take
    rw [hk]
    exact dropWhile_take p a haa _
  have step2 : m.reverse.dropWhile p = m.reverse := by
    rw [hm, List.reverse_reverse]
    exact dropWhile_idem p _
  rw [step1, step2, List.reverse_reverse]

/-! ### Library lemmas: lookup in the enumerated renumbering table -/

theorem alookup_enumFrom (g : Nat → String) :
    ∀ (l : List String), l.Nodup → ∀ (off : Nat) (k : String), k ∈ l →
      ∃ i, i < l.length ∧ l.get? i = some k ∧
        alookup k ((List.enumFrom off l).map (fun p => (p.2, g p.1))) = some (g (off + i)) := by
  intro l
  induction l with
  | nil => intro _ _ k hk; cases hk
  | cons x xs ih =>
    intro hnd off k hk
    have hmap : (List.enumFrom off (x :: xs)).map (fun p => (p.2, g p.1)) =
        (x, g off) :: (List.enumFrom (off + 1) xs).map (fun p => (p.2, g p.1)) := rfl
    rcases List.mem_cons.mp hk with hkx | hkxs
    · subst hkx
      refine ⟨0, by simp, rfl, ?_⟩
      rw [hmap]
      simp [alookup]
    · have hne : ¬ x = k := by
        intro hxk
        exact (List.nodup_cons.mp hnd).1 (hxk ▸ hkxs)
      obtain ⟨i, hi, hget, hlook⟩ := ih (List.nodup_cons.mp hnd).2 (off + 1) k hkxs
      refine ⟨i + 1, ?_, ?_, ?_⟩
      · exact Nat.succ_lt_succ hi
      · exact hget
      · rw [hmap]
        simp only [alookup, if_neg hne]
        rw [hlook]
        have harith : off + (i + 1) = off + 1 + i := by omega
        rw [harith]

/-! ### Library lemmas: the pack loop -/

/-- The pack loop on a list of well-formed entries, as a fold. -/
def packFold (po cn : String) (cid : Nat) (items : List SelItem) (db : DB) : DB :=
  items.foldl (fun db it => packOne po cn cid it db) db

theorem packLoop_map_some (po cn : String) (cid : Nat) :
    ∀ (items : List SelItem) (db : DB),
      packLoop po cn cid (items.map some) db = .ok (packFold po cn cid items db) := by
  intro items
  induction items with
  | nil => intro db; rfl
  | cons it rest ih => intro db; exact ih (packOne po cn cid it db)

/-- The ledger update a pack call performs: every row of the PO whose item
number was selected becomes `'packed'` in the given carton. -/
def markPacked (po cn : String) (nums : List String) (r : ItemRow) : ItemRow :=
  if r.po_number = po ∧ r.item_number ∈ nums then
    { r with packed_status := "packed", carton_number := some cn }
  else r

theorem markPacked_step (po cn num : String) (nums : List String) (r : ItemRow) :
    markPacked po cn nums
      (if r.po_number = po ∧ r.item_number = num then
        { r with packed_status := "packed", carton_number := some cn }
      else r) = markPacked po cn (num :: nums) r := by
  unfold markPacked
  by_cases hpo : r.po_number = po
  · by_cases hnum : r.item_number = num
    · by_cases h2 : r.item_number ∈ nums <;> simp [hpo, hnum, h2]
    · by_cases h2 : r.item_number ∈ nums <;> simp [hpo, hnum, h2]
  · simp [hpo]

/-- The carton-item row the loop inserts for one selected item. -/
def mkCartonItem (po : String) (cid : Nat) (it : SelItem) : CartonItemRow :=
  { carton_id := cid, po_number := po, item_number := it.item_number,
    description := it.description, color := it.color,
    packed_qty := it.qty, original_qty := it.qty }

theorem packFold_po_items (po cn : String) (cid : Nat) :
    ∀ (items : List SelItem) (db : DB),
      (packFold po cn cid items db).po_items =
        db.po_items.map (markPacked po cn (items.map (fun it => it.item_number))) := by
  intro items
  induction items with
  | nil =>
    intro db
    rw [packFold, List.foldl_nil]
    simp only [List.map_nil]
    have h0 : ∀ r ∈ db.po_items, markPacked po cn ([] : List String) r = r := by
      intro r _
      unfold markPacked
      rw [if_neg (by intro hc; exact absurd hc.2 (List.not_mem_nil _))]
    rw [List.map_congr_left h0]
    simp
  | cons it rest ih =>
    intro db
    have hfold : packFold po cn cid (it :: rest) db =
        packFold po cn cid rest (packOne po cn cid it db) := rfl
    rw [hfold, ih (packOne po cn cid it db)]
    have hpo : (packOne po cn cid it db).po_items = db.po_items.map (fun r =>
        if r.po_number = po ∧ r.item_number = it.item_number then
          { r with packed_status := "packed", carton_number := some cn }
        else r) := rfl
    rw [hpo, List.map_map]
    apply List.map_congr_left
    intro r _
    exact markPacked_step po cn it.item_number (rest.map (fun it => it.item_number)) r

theorem packFold_carton_items (po cn : String) (cid : Nat) :
    ∀ (items : List SelItem) (db : DB),
      (packFold po cn cid items db).carton_items =
        db.carton_items ++ items.map (mkCartonItem po cid) := by
  intro items
  induction items with
  | nil => intro db; simp [packFold]
  | cons it rest ih =>
    intro db
    have hfold : packFold po cn cid (it :: rest) db =
        packFold po cn cid rest (packOne po cn cid it db) := rfl
    rw [hfold, ih (packOne po cn cid it db)]
    have hci : (packOne po cn cid it db).carton_items =
        db.carton_items ++ [mkCartonItem po cid it] := rfl
    rw [hci, List.append_assoc, List.singleton_append, List.map_cons]

theorem packFold_cartons (po cn : String) (cid : Nat) :
    ∀ (items : List SelItem) (db : DB),
      (packFold po cn cid items db).cartons = db.cartons := by
  intro items
  induction items with
  | nil => intro db; rfl
  | cons it rest ih => intro db; exact ih (packOne po cn cid it db)

theorem packFold_packing_lists (po cn : String) (cid : Nat) :
    ∀ (items : List SelItem) (db : DB),
      (packFold po cn cid items db).packing_lists = db.packing_lists := by
  intro items
  induction items with
  | nil => intro db; rfl
  | cons it rest ih => intro db; exact ih (packOne po cn cid it db)

theorem packFold_next_carton_id (po cn : String) (cid : Nat) :
    ∀ (items : List SelItem) (db : DB),
      (packFold po cn cid items db).next_carton_id = db.next_carton_id := by
  intro items
  induction items with
  | nil => intro db; rfl
  | cons it rest ih => intro db; exact ih (packOne po cn cid it db)

/-! ### Auxiliary counting lemma -/

theorem length_filter_and_le {α : Type} (p q : α → Bool) (l : List α) :
    (l.filter (fun a => p a && q a)).length ≤ (l.filter p).length := by
  induction l with
  | nil => simp
  | cons x xs ih =>
    simp only [List.filter_cons]
    cases hp : p x <;> cases hq : q x <;> simp [hp, hq] <;> omega

theorem packed_le_total (db : DB) (po : String) :
    (packedItemsForPo db po).length ≤ (itemsForPo db po).length := by
  unfold packedItemsForPo itemsForPo
  exact length_filter_and_le _ _ _

/-! ### Concrete fixtures used by witnesses and counterexamples

`dbTwo` is a freshly ingested PO `"P"` with two unpacked line items; the packed
and rendered states are produced by running the embedded handlers themselves,
so every fixture is reachable through the API. -/

def mkItem (po num q : String) : ItemRow :=
  { po_number := po, item_number := num, description := "Desc " ++ num, color := "Blue",
    qty := q, packed_status := "not_packed", carton_number := none, pl_number := none }

def dbTwo : DB :=
  { po_items := [mkItem "P" "A" "10", mkItem "P" "B" "20"],
    cartons := [], carton_items := [], packing_lists := [], next_carton_id := 1 }

def dbOne : DB :=
  { po_items := [mkItem "P" "A" "10"],
    cartons := [], carton_items := [], packing_lists := [], next_carton_id := 1 }

def selA : SelItem := { item_number := "A", description := "Desc A", color := "Blue", qty := 10 }

def selB : SelItem := { item_number := "B", description := "Desc B", color := "Blue", qty := 20 }

def selA5 : SelItem := { item_number := "A", description := "Desc A", color := "Blue", qty := 5 }

/-- `dbTwo` after packing both items into carton 1. -/
def dbPacked1 : DB :=
  (pack_items_simple dbTwo "P" [some selA, some selB] "Medium Box" 3 "20260101").1

/-- `dbPacked1` after re-packing both items into carton 2 (the API has no guard
against re-packing, so both items end up assigned to carton `"2"` while carton
`"1"` still exists). -/
def dbPacked2 : DB :=
  (pack_items_simple dbPacked1 "P" [some selA, some selB] "Big Box" 4 "20260101").1

/-- `dbPacked2` after rendering the packing list `PL0000001`. -/
def dbRendered : DB := (generate_pdf_packing_list dbPacked2 "P").1

/-! ### C9 -/

/-- C9: `check_completion` returns `total_items`, `packed_items` counted from
the ledger, `remaining_items = total_items - packed_items`, and
`is_complete ↔ (total_items > 0 ∧ packed_items = total_items)`; a PO with zero
items yields the normal result `(false, 0, 0, 0)`, not an error. -/
theorem check_completion_spec (db : DB) (po0 : String) (h : pyStrip po0 ≠ "") :
    ∃ r : CompletionResult,
      check_completion db po0 = .ok r ∧
      r.total_items = (itemsForPo db (pyStrip po0)).length ∧
      r.packed_items = (packedItemsForPo db (pyStrip po0)).length ∧
      r.remaining_items = r.total_items - r.packed_items ∧
      (r.is_complete = true ↔ 0 < r.total_items ∧ r.packed_items = r.total_items) ∧
      ((itemsForPo db (pyStrip po0)).length = 0 →
        r = { is_complete := false, total_items := 0, packed_items := 0,
              remaining_items := 0 }) := by
  simp only [check_completion]
  rw [if_neg h]
  refine ⟨_, rfl, rfl, rfl, rfl, ?_, ?_⟩
  · constructor
    · intro hc
      have := Bool.and_eq_true _ _ |>.mp hc
      exact ⟨of_decide_eq_true this.1, of_decide_eq_true this.2⟩
    · intro ⟨h1, h2⟩
      exact Bool.and_eq_true _ _ |>.mpr ⟨decide_eq_true h1, decide_eq_true h2⟩
  · intro h0
    have hple := packed_le_total db (pyStrip po0)
    have hp0 : (packedItemsForPo db (pyStrip po0)).length = 0 := by omega
    simp [h0, hp0]

theorem check_completion_spec_witness :
    ∃ r : CompletionResult,
      check_completion dbTwo "P" = .ok r ∧
      r.total_items = (itemsForPo dbTwo (pyStrip "P")).length ∧
      r.packed_items = (packedItemsForPo dbTwo (pyStrip "P")).length ∧
      r.remaining_items = r.total_items - r.packed_items ∧
      (r.is_complete = true ↔ 0 < r.total_items ∧ r.packed_items = r.total_items) ∧
      ((itemsForPo dbTwo (pyStrip "P")).length = 0 →
        r = { is_complete := false, total_items := 0, packed_items := 0,
              remaining_items := 0 }) :=
  check_completion_spec dbTwo "P" (by decide)

/-! ### C5 -/

/-- Any successful run of the pack loop means every entry was well-formed, and
the final state is the fold of the per-item step. -/
theorem packLoop_ok (po cn : String) (cid : Nat) :
    ∀ (sel : List (Option SelItem)) (db db'' : DB),
      packLoop po cn cid sel db = .ok db'' →
      ∃ items : List SelItem, sel = items.map some ∧ db'' = packFold po cn cid items db := by
  intro sel
  induction sel with
  | nil =>
    intro db db'' h
    refine ⟨[], rfl, ?_⟩
    simpa [packLoop, packFold] using h.symm
  | cons e rest ih =>
    intro db db'' h
    cases e with
    | none => exact absurd h (by simp [packLoop])
    | some it =>
      obtain ⟨items, hsel, hdb⟩ := ih (packOne po cn cid it db) db'' h
      exact ⟨it :: items, by rw [List.map_cons, hsel], hdb⟩

/-- The carton row a `pack_items` call inserts (before the loop runs). -/
def stagedCarton (db : DB) (po ct : String) (w : Int) (today : String) : CartonRow :=
  { id := db.next_carton_id, po_number := po,
    carton_number := Nat.repr ((cartonsForPo db po).length + 1),
    carton_size := ct, actual_weight := intStr w,
    barcode := po ++ "-" ++ Nat.repr ((cartonsForPo db po).length + 1) ++ "-" ++ today,
    packing_option := "Option A" }

/-- The uncommitted state of a `pack_items` call right after the carton
insert. -/
def stagedDB (db : DB) (po ct : String) (w : Int) (today : String) : DB :=
  { db with
    cartons := db.cartons ++ [stagedCarton db po ct w today],
    next_carton_id := db.next_carton_id + 1 }

theorem pack_items_simple_eq (db : DB) (po0 : String) (selected : List (Option SelItem))
    (ct0 : String) (w : Int) (today : String)
    (hval : ¬ (pyStrip po0 = "" ∨ selected.isEmpty = true ∨ pyStrip ct0 = "")) :
    pack_items_simple db po0 selected ct0 w today =
      (match packLoop (pyStrip po0) (Nat.repr ((cartonsForPo db (pyStrip po0)).length + 1))
          db.next_carton_id selected (stagedDB db (pyStrip po0) (pyStrip ct0) w today) with
      | .error e => (db, .error e)
      | .ok st => (st, .ok
          { carton_number := Nat.repr ((cartonsForPo db (pyStrip po0)).length + 1),
            barcode := pyStrip po0 ++ "-" ++
              Nat.repr ((cartonsForPo db (pyStrip po0)).length + 1) ++ "-" ++ today,
            packed_items_count := selected.length })) := by
  simp only [pack_items_simple, stagedDB, stagedCarton]
  rw [if_neg hval]

/-- C5: each `pack_items` call is atomic.  If the call errors — at validation
or part-way through the item loop — the observable database is exactly the
input one (nothing is committed before the final `conn.commit()`); if it
succeeds, the carton row, every ledger update and every carton-item row of the
call are all applied at once. -/
theorem pack_items_simple_atomic (db : DB) (po0 : String) (selected : List (Option SelItem))
    (ct0 : String) (w : Int) (today : String) :
    (∀ e db', pack_items_simple db po0 selected ct0 w today = (db', .error e) → db' = db) ∧
    (∀ db' res, pack_items_simple db po0 selected ct0 w today = (db', .ok res) →
      ∃ items : List SelItem, selected = items.map some ∧
        db'.cartons = db.cartons ++ [stagedCarton db (pyStrip po0) (pyStrip ct0) w today] ∧
        db'.carton_items = db.carton_items ++
          items.map (mkCartonItem (pyStrip po0) db.next_carton_id) ∧
        db'.po_items = db.po_items.map (markPacked (pyStrip po0) res.carton_number
          (items.map (fun it => it.item_number))) ∧
        db'.packing_lists = db.packing_lists) := by
  constructor
  · intro e db' h
    by_cases hval : pyStrip po0 = "" ∨ selected.isEmpty = true ∨ pyStrip ct0 = ""
    · unfold pack_items_simple at h
      rw [if_pos hval] at h
      exact (Prod.mk.injEq _ _ _ _ |>.mp h).1.symm
    · rw [pack_items_simple_eq db po0 selected ct0 w today hval] at h
      cases hloop : packLoop (pyStrip po0)
          (Nat.repr ((cartonsForPo db (pyStrip po0)).length + 1)) db.next_carton_id selected
          (stagedDB db (pyStrip po0) (pyStrip ct0) w today) with
      | error e' => rw [hloop] at h; exact (Prod.mk.injEq _ _ _ _ |>.mp h).1.symm
      | ok st => rw [hloop] at h; exact absurd (Prod.mk.injEq _ _ _ _ |>.mp h).2 (by simp)
  · intro db' res h
    by_cases hval : pyStrip po0 = "" ∨ selected.isEmpty = true ∨ pyStrip ct0 = ""
    · unfold pack_items_simple at h
      rw [if_pos hval] at h
      exact absurd (Prod.mk.injEq _ _ _ _ |>.mp h).2 (by simp)
    · rw [pack_items_simple_eq db po0 selected ct0 w today hval] at h
      cases hloop : packLoop (pyStrip po0)
          (Nat.repr ((cartonsForPo db (pyStrip po0)).length + 1)) db.next_carton_id selected
          (stagedDB db (pyStrip po0) (pyStrip ct0) w today) with
      | error e' => rw [hloop] at h; exact absurd (Prod.mk.injEq _ _ _ _ |>.mp h).2 (by simp)
      | ok st =>
        rw [hloop] at h
        obtain ⟨hdb, hres⟩ := Prod.mk.injEq _ _ _ _ |>.mp h
        have hres' := Except.ok.inj hres
        obtain ⟨items, hsel, hst⟩ := packLoop_ok _ _ _ _ _ _ hloop
        subst hdb hsel
        refine ⟨items, rfl, ?_, ?_, ?_, ?_⟩
        · rw [hst, packFold_cartons]
          rfl
        · rw [hst, packFold_carton_items]
          rfl
        · rw [hst, packFold_po_items, ← hres']
          rfl
        · rw [hst, packFold_packing_lists]
          rfl

theorem pack_items_simple_atomic_witness :
    pack_items_simple dbTwo "P" [some selA, none] "Box" 1 "20260101" =
      (dbTwo, .error "Pack items error") ∧
    dbTwo = dbTwo :=
  ⟨by decide,
    (pack_items_simple_atomic dbTwo "P" [some selA, none] "Box" 1 "20260101").1
      "Pack items error" dbTwo (by decide)⟩

/-! ### C1 -/

/-- C1: a successful `pack_items` call returns
`carton_number = str(count of existing cartons for the PO + 1)`, reports one
packed item per selected entry, sets every selected item of the PO to
`'packed'` with that carton number, and records exactly one carton-item row
per selected entry. -/
theorem pack_items_simple_spec (db : DB) (po0 : String) (items : List SelItem)
    (ct0 : String) (w : Int) (today : String) (db' : DB) (res : PackResult)
    (h : pack_items_simple db po0 (items.map some) ct0 w today = (db', .ok res)) :
    res.carton_number = Nat.repr ((cartonsForPo db (pyStrip po0)).length + 1) ∧
    res.packed_items_count = items.length ∧
    (∀ r ∈ db'.po_items, r.po_number = pyStrip po0 →
        r.item_number ∈ items.map (fun it => it.item_number) →
        r.packed_status = "packed" ∧ r.carton_number = some res.carton_number) ∧
    db'.carton_items = db.carton_items ++
      items.map (mkCartonItem (pyStrip po0) db.next_carton_id) := by
  by_cases hval : pyStrip po0 = "" ∨ (items.map some).isEmpty = true ∨ pyStrip ct0 = ""
  · unfold pack_items_simple at h
    rw [if_pos hval] at h
    exact absurd (Prod.mk.injEq _ _ _ _ |>.mp h).2 (by simp)
  · rw [pack_items_simple_eq db po0 (items.map some) ct0 w today hval] at h
    rw [packLoop_map_some] at h
    obtain ⟨hdb, hres⟩ := Prod.mk.injEq _ _ _ _ |>.mp h
    have hres' := Except.ok.inj hres
    subst hres'
    refine ⟨rfl, by simp, ?_, ?_⟩
    · intro r hr hpo hnum
      rw [← hdb, packFold_po_items] at hr
      obtain ⟨r0, hr0mem, hr0⟩ := List.mem_map.mp hr
      by_cases hcond : r0.po_number = pyStrip po0 ∧
          r0.item_number ∈ items.map (fun it => it.item_number)
      · rw [← hr0]
        unfold markPacked
        rw [if_pos hcond]
        exact ⟨rfl, rfl⟩
      · have hid : markPacked (pyStrip po0)
            (Nat.repr ((cartonsForPo db (pyStrip po0)).length + 1))
            (items.map (fun it => it.item_number)) r0 = r0 := by
          unfold markPacked
          rw [if_neg (by exact fun hc => hcond hc)]
        rw [hid] at hr0
        rw [← hr0] at hpo hnum
        exact absurd ⟨hpo, hnum⟩ hcond
    · rw [← hdb, packFold_carton_items]
      rfl

theorem pack_items_simple_spec_witness :
    (PackResult.mk "1" "P-1-20260101" 2).carton_number =
      Nat.repr ((cartonsForPo dbTwo (pyStrip "P")).length + 1) ∧
    (PackResult.mk "1" "P-1-20260101" 2).packed_items_count = [selA, selB].length ∧
    (∀ r ∈ dbPacked1.po_items, r.po_number = pyStrip "P" →
        r.item_number ∈ [selA, selB].map (fun it => it.item_number) →
        r.packed_status = "packed" ∧
        r.carton_number = some (PackResult.mk "1" "P-1-20260101" 2).carton_number) ∧
    dbPacked1.carton_items = dbTwo.carton_items ++
      [selA, selB].map (mkCartonItem (pyStrip "P") dbTwo.next_carton_id) :=
  pack_items_simple_spec dbTwo "P" [selA, selB] "Medium Box" 3 "20260101" dbPacked1
    (PackResult.mk "1" "P-1-20260101" 2) (by decide)

/-! ### Shape of the renderer -/

/-- The carton renumbering table the renderer builds: distinct stored carton
numbers, in ascending (string) order, paired with `"1"`, `"2"`, … -/
def renumMapping (rows : List PackedRow) : List (String × String) :=
  (sortLe strLeB (dedupKF (rows.map (fun r => r.carton_number)))).enum.map
    (fun p => (p.2, Nat.repr (p.1 + 1)))

/-- Rows with the renumbering applied (display copy). -/
def renumberRows (rows : List PackedRow) : List PackedRow :=
  rows.map (fun r =>
    { r with carton_number := (alookup r.carton_number (renumMapping rows)).getD r.carton_number })

/-- Carton details keyed by the new numbers (display copy). -/
def renumberDetails (rows : List PackedRow) (details : List (String × String × String)) :
    List (String × String × String) :=
  (renumMapping rows).filterMap (fun p => (detailLookup details p.1).map (fun d => (p.2, d.1, d.2)))

/-- The `packing_lists` row the renderer inserts. -/
def renderPLRow (db : DB) (po pl : String) : PackingListRow :=
  { pl_number := pl, po_number := po,
    total_cartons := (sortLe strLeB
      (dedupKF ((packedItemsQuery db po).map (fun r => r.carton_number)))).length,
    total_items := (packedItemsQuery db po).length,
    total_qty := qtyTotal (packedItemsQuery db po) }

/-- The `UPDATE po_items SET pl_number = ? WHERE po_number = ? AND
packed_status = 'packed'` stamp. -/
def stampItems (l : List ItemRow) (po pl : String) : List ItemRow :=
  l.map (fun r =>
    if r.po_number = po ∧ r.packed_status = "packed" then { r with pl_number := some pl } else r)

/-- The database state a non-trivial render commits. -/
def renderDB (db : DB) (po pl : String) : DB :=
  { db with
    packing_lists := db.packing_lists ++ [renderPLRow db po pl],
    po_items := stampItems db.po_items po pl }

/-- The document a non-trivial render emits. -/
def renderDoc (db : DB) (po pl : String) : RenderedDoc :=
  generate_professional_packing_list_html po (renumberRows (packedItemsQuery db po))
    (renumberDetails (packedItemsQuery db po) (cartonDetailsQuery db po)) pl

theorem generate_pdf_empty_eq (db : DB) (po0 : String) (hpo : ¬ pyStrip po0 = "")
    (pl : String) (hpl : generate_pl_number db = .ok pl)
    (hempty : packedItemsQuery db (pyStrip po0) = []) :
    generate_pdf_packing_list db po0 =
      (db, .ok (generate_professional_packing_list_html (pyStrip po0) []
        (cartonDetailsQuery db (pyStrip po0)) pl)) := by
  simp only [generate_pdf_packing_list]
  rw [if_neg hpo, hpl, hempty]
  simp

theorem generate_pdf_nonempty_eq (db : DB) (po0 : String) (hpo : ¬ pyStrip po0 = "")
    (pl : String) (hpl : generate_pl_number db = .ok pl)
    (hne : ¬ packedItemsQuery db (pyStrip po0) = []) :
    generate_pdf_packing_list db po0 =
      (renderDB db (pyStrip po0) pl, .ok (renderDoc db (pyStrip po0) pl)) := by
  have hb : (packedItemsQuery db (pyStrip po0)).isEmpty = false := by
    cases hq : packedItemsQuery db (pyStrip po0) with
    | nil => exact absurd hq hne
    | cons a l => rfl
  simp only [generate_pdf_packing_list, renderDB, renderDoc, renderPLRow, stampItems,
    renumberRows, renumberDetails, renumMapping]
  rw [if_neg hpo, hpl, hb]
  simp

/-! ### C2 -/

theorem length_filter_map_po (po : String) (f : ItemRow → ItemRow)
    (hf : ∀ r, (f r).po_number = r.po_number) (l : List ItemRow) :
    ((l.map f).filter (fun r => decide (r.po_number = po))).length =
      (l.filter (fun r => decide (r.po_number = po))).length := by
  induction l with
  | nil => rfl
  | cons x xs ih =>
    simp only [List.map_cons, List.filter_cons, hf]
    by_cases h : x.po_number = po <;> simp [h, ih]

/-- C2 counterexample: `mark_all_done` does *not* leave `'packed'` items
untouched and is *not* a count-0 no-op on re-run.  On a PO whose two items are
both `'packed'`, it reports 2 affected rows, moves both items to `'done'`, and
a second immediate call again reports 2 (not 0). -/
theorem mark_all_done_resets_packed :
    (dbPacked1.po_items.map (fun r => r.packed_status) = ["packed", "packed"]) ∧
    (mark_all_done dbPacked1 "P").2 = .ok 2 ∧
    ((mark_all_done dbPacked1 "P").1.po_items.map (fun r => r.packed_status) =
      ["done", "done"]) ∧
    (mark_all_done (mark_all_done dbPacked1 "P").1 "P").2 = .ok 2 := by decide

/-- C2 (amended): `mark_all_done` sets *every* item of the PO to `'done'`
regardless of its current status — including items already `'packed'` — and
returns the total number of the PO's rows.  A second call with no intervening
`pack_items` leaves the state fixed but again returns that same total (not 0). -/
theorem mark_all_done_sets_every_item (db : DB) (po0 : String) (h : pyStrip po0 ≠ "") :
    ∃ db', mark_all_done db po0 = (db', .ok (itemsForPo db (pyStrip po0)).length) ∧
      db'.po_items = db.po_items.map (fun r =>
        if r.po_number = pyStrip po0 then { r with packed_status := "done" } else r) ∧
      mark_all_done db' po0 = (db', .ok (itemsForPo db (pyStrip po0)).length) := by
  refine ⟨{ db with po_items := db.po_items.map (fun r =>
    if r.po_number = pyStrip po0 then { r with packed_status := "done" } else r) }, ?_, rfl, ?_⟩
  · simp only [mark_all_done]
    rw [if_neg h]
  · simp only [mark_all_done]
    rw [if_neg h]
    have hf : ∀ r : ItemRow,
        ((fun r => if r.po_number = pyStrip po0 then
          { r with packed_status := "done" } else r) r).po_number = r.po_number := by
      intro r
      by_cases hr : r.po_number = pyStrip po0 <;> simp [hr]
    have hcount : (itemsForPo
        ({ db with po_items := db.po_items.map (fun r =>
          if r.po_number = pyStrip po0 then { r with packed_status := "done" } else r) })
        (pyStrip po0)).length = (itemsForPo db (pyStrip po0)).length := by
      unfold itemsForPo
      exact length_filter_map_po (pyStrip po0) _ hf db.po_items
    rw [hcount]
    have hidem : (db.po_items.map (fun r =>
        if r.po_number = pyStrip po0 then { r with packed_status := "done" } else r)).map
          (fun r => if r.po_number = pyStrip po0 then { r with packed_status := "done" } else r) =
        db.po_items.map (fun r =>
          if r.po_number = pyStrip po0 then { r with packed_status := "done" } else r) := by
      rw [List.map_map]
      apply List.map_congr_left
      intro r _
      by_cases hr : r.po_number = pyStrip po0 <;> simp [hr]
    simp only [hidem]

theorem mark_all_done_sets_every_item_witness :
    ∃ db', mark_all_done dbPacked1 "P" = (db', .ok (itemsForPo dbPacked1 (pyStrip "P")).length) ∧
      db'.po_items = dbPacked1.po_items.map (fun r =>
        if r.po_number = pyStrip "P" then { r with packed_status := "done" } else r) ∧
      mark_all_done db' "P" = (db', .ok (itemsForPo dbPacked1 (pyStrip "P")).length) :=
  mark_all_done_sets_every_item dbPacked1 "P" (by decide)

/-! ### C3 -/

/-- C3 counterexample: `'packed'` is not terminal.  Packing the single item of
a PO makes it `'packed'`; the very next `mark_all_done` moves it back to
`'done'` even though no reset ran. -/
theorem packed_status_lost_on_mark_all_done :
    ((pack_items_simple dbOne "P" [some selA] "Box" 2 "20260101").1.po_items.map
      (fun r => r.packed_status) = ["packed"]) ∧
    ((mark_all_done (pack_items_simple dbOne "P" [some selA] "Box" 2 "20260101").1 "P").1.po_items.map
      (fun r => r.packed_status) = ["done"]) := by decide

/-- C3 (amended): `pack_items` and the packing-list renderer never move an
item out of `'packed'` (packing only sets `'packed'`, rendering only stamps
`pl_number`), but `mark_all_done` is a backward transition: it resets packed
items of the PO to `'done'`, so `'packed'` is not a terminal state. -/
theorem packed_status_preserved_by_pack_and_render (db : DB) :
    (∀ (po0 : String) (sel : List (Option SelItem)) (ct0 : String) (w : Int) (today : String)
        (i : Nat) (r : ItemRow), db.po_items.get? i = some r → r.packed_status = "packed" →
      ∃ r', (pack_items_simple db po0 sel ct0 w today).1.po_items.get? i = some r' ∧
        r'.packed_status = "packed") ∧
    (∀ (po0 : String) (i : Nat) (r : ItemRow),
        db.po_items.get? i = some r → r.packed_status = "packed" →
      ∃ r', (generate_pdf_packing_list db po0).1.po_items.get? i = some r' ∧
        r'.packed_status = "packed") := by
  refine ⟨?_, ?_⟩
  · intro po0 sel ct0 w today i r hi hst
    by_cases hval : pyStrip po0 = "" ∨ sel.isEmpty = true ∨ pyStrip ct0 = ""
    · have heq : pack_items_simple db po0 sel ct0 w today =
          (db, .error "Missing required fields") := by
        unfold pack_items_simple
        rw [if_pos hval]
      rw [heq]
      exact ⟨r, hi, hst⟩
    · rw [pack_items_simple_eq db po0 sel ct0 w today hval]
      cases hloop : packLoop (pyStrip po0)
          (Nat.repr ((cartonsForPo db (pyStrip po0)).length + 1)) db.next_carton_id sel
          (stagedDB db (pyStrip po0) (pyStrip ct0) w today) with
      | error e' =>
        exact ⟨r, hi, hst⟩
      | ok st =>
        obtain ⟨items, hsel, hfold⟩ := packLoop_ok _ _ _ _ _ _ hloop
        have hpo : st.po_items = db.po_items.map
            (markPacked (pyStrip po0) (Nat.repr ((cartonsForPo db (pyStrip po0)).length + 1))
              (items.map (fun it => it.item_number))) := by
          rw [hfold, packFold_po_items]
          rfl
        refine ⟨markPacked (pyStrip po0)
          (Nat.repr ((cartonsForPo db (pyStrip po0)).length + 1))
          (items.map (fun it => it.item_number)) r, ?_, ?_⟩
        · show st.po_items.get? i = _
          rw [hpo, List.get?_map, hi]
          rfl
        · unfold markPacked
          by_cases hc : r.po_number = pyStrip po0 ∧
              r.item_number ∈ items.map (fun it => it.item_number)
          · rw [if_pos hc]
          · rw [if_neg hc]
            exact hst
  · intro po0 i r hi hst
    by_cases hpo : pyStrip po0 = ""
    · have heq : generate_pdf_packing_list db po0 = (db, .error "PO number is required") := by
        unfold generate_pdf_packing_list
        rw [if_pos hpo]
      rw [heq]
      exact ⟨r, hi, hst⟩
    · cases hpl : generate_pl_number db with
      | error e =>
        have heq : generate_pdf_packing_list db po0 = (db, .error e) := by
          simp only [generate_pdf_packing_list]
          rw [if_neg hpo, hpl]
        rw [heq]
        exact ⟨r, hi, hst⟩
      | ok pl =>
        by_cases hemp : packedItemsQuery db (pyStrip po0) = []
        · rw [generate_pdf_empty_eq db po0 hpo pl hpl hemp]
          exact ⟨r, hi, hst⟩
        · rw [generate_pdf_nonempty_eq db po0 hpo pl hpl hemp]
          refine ⟨if r.po_number = pyStrip po0 ∧ r.packed_status = "packed" then
            { r with pl_number := some pl } else r, ?_, ?_⟩
          · show (stampItems db.po_items (pyStrip po0) pl).get? i = _
            unfold stampItems
            rw [List.get?_map, hi]
            rfl
          · by_cases hc : r.po_number = pyStrip po0 ∧ r.packed_status = "packed"
            · rw [if_pos hc]
              exact hst
            · rw [if_neg hc]
              exact hst

theorem packed_status_preserved_witness :
    ∃ r', (pack_items_simple dbPacked1 "P" [some selA] "Box" 1 "20260102").1.po_items.get? 0 =
        some r' ∧ r'.packed_status = "packed" :=
  (packed_status_preserved_by_pack_and_render dbPacked1).1 "P" [some selA] "Box" 1 "20260102" 0
    { mkItem "P" "A" "10" with packed_status := "packed", carton_number := some "1" }
    (by decide) (by decide)

/-! ### C4 -/

/-- C4 counterexample: a `pack_items` call with `carton_weight = 0` (and
otherwise valid fields) does *not* fail — it succeeds and creates a carton. -/
theorem carton_weight_zero_accepted :
    (pack_items_simple dbOne "P" [some selA] "Medium Box" 0 "20260101").2 =
      .ok { carton_number := "1", barcode := "P-1-20260101", packed_items_count := 1 } ∧
    (pack_items_simple dbOne "P" [some selA] "Medium Box" 0 "20260101").1.cartons.length = 1 := by
  decide

/-- C4 (amended): `pack_items` validates only that `po_number`,
`selected_items` and `carton_type` are non-empty, failing with
"Missing required fields" and leaving the state untouched; `carton_weight` is
*not* validated — any numeric weight, zero or negative included, passes and a
carton is created. -/
theorem pack_validation_scope :
    (∀ (db : DB) (po0 : String) (sel : List (Option SelItem)) (w : Int) (today ct0 : String),
      pyStrip ct0 = "" →
      pack_items_simple db po0 sel ct0 w today = (db, .error "Missing required fields")) ∧
    (∀ (db : DB) (po0 : String) (items : List SelItem) (ct0 : String) (w : Int) (today : String),
      pyStrip po0 ≠ "" → pyStrip ct0 ≠ "" → items ≠ [] →
      ∃ db' res, pack_items_simple db po0 (items.map some) ct0 w today = (db', .ok res) ∧
        db'.cartons.length = db.cartons.length + 1) := by
  constructor
  · intro db po0 sel w today ct0 hct
    unfold pack_items_simple
    rw [if_pos (Or.inr (Or.inr hct))]
  · intro db po0 items ct0 w today hpo hct hitems
    have hval : ¬ (pyStrip po0 = "" ∨ (items.map some).isEmpty = true ∨ pyStrip ct0 = "") := by
      intro hc
      rcases hc with hc | hc | hc
      · exact hpo hc
      · cases items with
        | nil => exact hitems rfl
        | cons a l => exact absurd hc (by simp)
      · exact hct hc
    rw [pack_items_simple_eq db po0 (items.map some) ct0 w today hval, packLoop_map_some]
    refine ⟨_, _, rfl, ?_⟩
    rw [packFold_cartons]
    simp [stagedDB]

theorem pack_validation_scope_witness :
    (pack_items_simple dbOne "P" [some selA] "" 5 "20260101" =
      (dbOne, .error "Missing required fields")) ∧
    ∃ db' res, pack_items_simple dbOne "P" ([selA].map some) "Box" (-2) "20260101" =
        (db', .ok res) ∧ db'.cartons.length = dbOne.cartons.length + 1 :=
  ⟨pack_validation_scope.1 dbOne "P" [some selA] 5 "20260101" "" (by decide),
   pack_validation_scope.2 dbOne "P" [selA] "Box" (-2) "20260101"
     (by decide) (by decide) (by decide)⟩

/-! ### C6 -/

/-- C6 counterexample: rendering a PO with no packed items is *not* a
`NotFoundError`.  On a PO whose two items are both still `'not_packed'`, the
renderer succeeds with an empty document (zero totals) and writes nothing —
the returned state is the input state. -/
theorem render_no_packed_items_not_error :
    generate_pdf_packing_list dbTwo "P" =
      (dbTwo, .ok { pl_number := "PL0000001", po_number := "P", groups := [],
                    total_cartons := 0, total_items := 0, total_qty := 0 }) := by decide

/-- C6 (amended): for a PO none of whose items is `'packed'`, the renderer
succeeds with an empty document — empty carton groups and all three totals
zero — and performs no write at all: no packing-list row, no `pl_number`
stamp, the database unchanged. -/
theorem render_no_packed_items_succeeds_empty (db : DB) (po0 : String)
    (hpo : pyStrip po0 ≠ "") (pl : String) (hpl : generate_pl_number db = .ok pl)
    (hnone : ∀ r ∈ db.po_items, r.po_number = pyStrip po0 → r.packed_status ≠ "packed") :
    generate_pdf_packing_list db po0 =
      (db, .ok { pl_number := pl, po_number := pyStrip po0, groups := [],
                 total_cartons := 0, total_items := 0, total_qty := 0 }) := by
  have hempty : packedItemsQuery db (pyStrip po0) = [] := by
    unfold packedItemsQuery
    have hfil : db.po_items.filter (fun r =>
        decide (r.po_number = pyStrip po0) && decide (r.packed_status = "packed") &&
          r.carton_number.isSome) = [] := by
      rw [List.filter_eq_nil]
      intro r hr
      by_cases h1 : r.po_number = pyStrip po0
      · have h2 := hnone r hr h1
        simp [h1, h2]
      · simp [h1]
    rw [hfil]
    rfl
  rw [generate_pdf_empty_eq db po0 hpo pl hpl hempty]
  rfl

theorem render_no_packed_items_witness :
    generate_pdf_packing_list dbOne "P" =
      (dbOne, .ok { pl_number := "PL0000001", po_number := pyStrip "P", groups := [],
                    total_cartons := 0, total_items := 0, total_qty := 0 }) :=
  render_no_packed_items_succeeds_empty dbOne "P" (by decide) "PL0000001" (by decide)
    (by decide)

/-! ### C8 -/

/-- C8 counterexample: `original_qty` is *not* the ledger's ordered quantity at
pack time — it is a copy of the caller-supplied packed quantity.  Item `A` has
ordered quantity `"10"` in the ledger; packing it with a supplied quantity of
5 records `original_qty = 5`, not 10. -/
theorem original_qty_is_supplied_not_ledger :
    (dbOne.po_items.map (fun r => r.qty) = ["10"]) ∧
    pyInt "10" = some 10 ∧
    ((get_carton_summary (pack_items_simple dbOne "P" [some selA5] "Box" 2 "20260101").1 "P").map
      (fun l => l.map (fun s => s.items.map (fun it => it.original_qty)))) = .ok [[5]] ∧
    (5 : Int) ≠ 10 := by decide

theorem filter_all_true {α : Type} (p : α → Bool) (l : List α) (h : ∀ a ∈ l, p a = true) :
    l.filter p = l := by
  induction l with
  | nil => rfl
  | cons x xs ih =>
    rw [List.filter_cons, if_pos (h x (List.mem_cons_self _ _))]
    rw [ih (fun a ha => h a (List.mem_cons_of_mem _ ha))]

/-- C8 (amended): after a successful `pack_items` call, the Carton Registry
summary for that PO contains the new carton, reporting exactly the supplied
item rows in order, with `packed_qty` *and* `original_qty` both equal to the
caller-supplied quantity (the ledger's ordered quantity is not consulted). -/
theorem carton_summary_roundtrip (db : DB) (po0 : String) (items : List SelItem)
    (ct0 : String) (w : Int) (today : String) (db' : DB) (res : PackResult)
    (hfresh : ∀ r ∈ db.carton_items, r.carton_id ≠ db.next_carton_id)
    (h : pack_items_simple db po0 (items.map some) ct0 w today = (db', .ok res)) :
    ∃ l, get_carton_summary db' po0 = .ok l ∧
      ∃ s ∈ l, s.id = db.next_carton_id ∧ s.carton_number = res.carton_number ∧
        s.items = items.map (fun it =>
          { item_number := it.item_number, description := it.description,
            color := it.color, packed_qty := it.qty, original_qty := it.qty }) := by
  by_cases hval : pyStrip po0 = "" ∨ (items.map some).isEmpty = true ∨ pyStrip ct0 = ""
  · unfold pack_items_simple at h
    rw [if_pos hval] at h
    exact absurd (Prod.mk.injEq _ _ _ _ |>.mp h).2 (by simp)
  · have hpo : ¬ pyStrip po0 = "" := fun hc => hval (Or.inl hc)
    rw [pack_items_simple_eq db po0 (items.map some) ct0 w today hval,
      packLoop_map_some] at h
    obtain ⟨hdb, hres⟩ := Prod.mk.injEq _ _ _ _ |>.mp h
    have hres' := Except.ok.inj hres
    subst hres'
    have hcartons : db'.cartons = db.cartons ++
        [stagedCarton db (pyStrip po0) (pyStrip ct0) w today] := by
      rw [← hdb, packFold_cartons]
      rfl
    have hci : db'.carton_items = db.carton_items ++
        items.map (mkCartonItem (pyStrip po0) db.next_carton_id) := by
      rw [← hdb, packFold_carton_items]
      rfl
    unfold get_carton_summary
    rw [if_neg hpo]
    refine ⟨_, rfl, ?_⟩
    have hmem : stagedCarton db (pyStrip po0) (pyStrip ct0) w today ∈
        sortLe (fun a b => strLeB a.carton_number b.carton_number)
          (cartonsForPo db' (pyStrip po0)) := by
      rw [mem_sortLe]
      unfold cartonsForPo
      rw [hcartons, List.filter_append]
      refine List.mem_append.mpr (Or.inr ?_)
      have : decide ((stagedCarton db (pyStrip po0) (pyStrip ct0) w today).po_number =
          pyStrip po0) = true := by
        unfold stagedCarton
        simp
      simp [List.filter_cons, this]
    refine ⟨_, List.mem_map_of_mem _ hmem, rfl, rfl, ?_⟩
    have hfilter : db'.carton_items.filter (fun r =>
        decide (r.carton_id = (stagedCarton db (pyStrip po0) (pyStrip ct0) w today).id)) =
        items.map (mkCartonItem (pyStrip po0) db.next_carton_id) := by
      rw [hci, List.filter_append]
      have hold : db.carton_items.filter (fun r =>
          decide (r.carton_id = (stagedCarton db (pyStrip po0) (pyStrip ct0) w today).id)) =
          [] := by
        rw [List.filter_eq_nil]
        intro r hr
        have := hfresh r hr
        simp [stagedCarton, this]
      have hnew : (items.map (mkCartonItem (pyStrip po0) db.next_carton_id)).filter (fun r =>
          decide (r.carton_id = (stagedCarton db (pyStrip po0) (pyStrip ct0) w today).id)) =
          items.map (mkCartonItem (pyStrip po0) db.next_carton_id) := by
        apply filter_all_true
        intro a ha
        obtain ⟨it, _, hit⟩ := List.mem_map.mp ha
        rw [← hit]
        simp [mkCartonItem, stagedCarton]
      rw [hold, hnew, List.nil_append]
    rw [hfilter, List.map_map]
    rfl

theorem carton_summary_roundtrip_witness :
    ∃ l, get_carton_summary
        (pack_items_simple dbOne "P" ([selA5].map some) "Box" 2 "20260101").1 "P" = .ok l ∧
      ∃ s ∈ l, s.id = dbOne.next_carton_id ∧
        s.carton_number = (PackResult.mk "1" "P-1-20260101" 1).carton_number ∧
        s.items = [selA5].map (fun it =>
          { item_number := it.item_number, description := it.description,
            color := it.color, packed_qty := it.qty, original_qty := it.qty }) :=
  carton_summary_roundtrip dbOne "P" [selA5] "Box" 2 "20260101"
    (pack_items_simple dbOne "P" ([selA5].map some) "Box" 2 "20260101").1
    (PackResult.mk "1" "P-1-20260101" 1) (by decide) (by decide)

/-! ### C7 -/

/-- Looking a distinct carton number up in the renumbering table yields the
1-based position of that number in the sorted distinct list. -/
theorem alookup_renumMapping (rows : List PackedRow) (k : String)
    (hk : k ∈ sortLe strLeB (dedupKF (rows.map (fun r => r.carton_number)))) :
    ∃ i, i < (sortLe strLeB (dedupKF (rows.map (fun r => r.carton_number)))).length ∧
      (sortLe strLeB (dedupKF (rows.map (fun r => r.carton_number)))).get? i = some k ∧
      alookup k (renumMapping rows) = some (Nat.repr (i + 1)) := by
  have hnd : (sortLe strLeB (dedupKF (rows.map (fun r => r.carton_number)))).Nodup :=
    ((sortLe_perm strLeB _).nodup_iff).mpr (nodup_dedupKF _)
  obtain ⟨i, hi, hget, hlook⟩ := alookup_enumFrom (fun i => Nat.repr (i + 1))
    (sortLe strLeB (dedupKF (rows.map (fun r => r.carton_number)))) hnd 0 k hk
  refine ⟨i, hi, hget, ?_⟩
  have h0 : (0 : Nat) + i = i := Nat.zero_add i
  rw [renumMapping]
  have henum : (sortLe strLeB (dedupKF (rows.map (fun r => r.carton_number)))).enum =
      List.enumFrom 0 (sortLe strLeB (dedupKF (rows.map (fun r => r.carton_number)))) := rfl
  rw [henum]
  rw [h0] at hlook
  exact hlook

/-- The renumbering substitution is injective on the carton numbers that occur
in the rows (distinct carton numbers get distinct dense numbers, because
`Nat.repr` is injective). -/
theorem renum_inj_on (rows : List PackedRow) :
    ∀ a ∈ rows.map (fun r => r.carton_number), ∀ b ∈ rows.map (fun r => r.carton_number),
      (alookup a (renumMapping rows)).getD a = (alookup b (renumMapping rows)).getD b →
      a = b := by
  intro a ha b hb hab
  have ha' : a ∈ sortLe strLeB (dedupKF (rows.map (fun r => r.carton_number))) := by
    rw [mem_sortLe, mem_dedupKF]
    exact ha
  have hb' : b ∈ sortLe strLeB (dedupKF (rows.map (fun r => r.carton_number))) := by
    rw [mem_sortLe, mem_dedupKF]
    exact hb
  obtain ⟨i, _, hgi, hli⟩ := alookup_renumMapping rows a ha'
  obtain ⟨j, _, hgj, hlj⟩ := alookup_renumMapping rows b hb'
  rw [hli, hlj] at hab
  simp only [Option.getD_some] at hab
  have hij : i = j := by
    have := nat_repr_injective (i + 1) (j + 1) hab
    omega
  rw [hij] at hgi
  rw [hgi] at hgj
  exact Option.some.inj hgj

/-- C7 counterexample: rendering does *not* persist the renumbering.  After
re-packing both items of the PO into carton 2 (so only carton number `"2"`
carries packed items), the rendered document shows the dense number `"1"`,
but the stored item rows still carry carton `"2"` and the stored carton rows
still carry `"1"` and `"2"`. -/
theorem render_renumbering_not_persisted :
    ((generate_pdf_packing_list dbPacked2 "P").2.map
      (fun d => d.groups.map (fun g => g.carton_number))) = .ok ["1"] ∧
    ((generate_pdf_packing_list dbPacked2 "P").1.po_items.map (fun r => r.carton_number)) =
      [some "2", some "2"] ∧
    ((generate_pdf_packing_list dbPacked2 "P").1.cartons.map (fun c => c.carton_number)) =
      ["1", "2"] := by decide

/-- C7 (amended): a successful render renumbers the distinct carton numbers to
a dense `1..N` sequence *in the displayed document only*.  The committed
writes are exactly one new `packing_lists` row and the `pl_number` stamp on the
PO's packed items; the stored `cartons` and `carton_items` tables and every
item's `carton_number` and `packed_status` are unchanged. -/
theorem render_renumbering_display_only (db : DB) (po0 : String) (db' : DB)
    (doc : RenderedDoc) (hpo : pyStrip po0 ≠ "")
    (h : generate_pdf_packing_list db po0 = (db', .ok doc)) :
    db'.cartons = db.cartons ∧
    db'.carton_items = db.carton_items ∧
    (∀ i, (db'.po_items.get? i).map
        (fun r => (r.carton_number, r.packed_status, r.item_number)) =
      (db.po_items.get? i).map
        (fun r => (r.carton_number, r.packed_status, r.item_number))) ∧
    (packedItemsQuery db (pyStrip po0) = [] → db' = db ∧ doc.groups = []) ∧
    (packedItemsQuery db (pyStrip po0) ≠ [] →
      (∃ plr, db'.packing_lists = db.packing_lists ++ [plr] ∧
        plr.pl_number = doc.pl_number ∧ plr.po_number = pyStrip po0) ∧
      db'.po_items = stampItems db.po_items (pyStrip po0) doc.pl_number ∧
      doc.groups.length = (sortLe strLeB
        (dedupKF ((packedItemsQuery db (pyStrip po0)).map (fun r => r.carton_number)))).length ∧
      (∀ g ∈ doc.groups, ∃ i, i < doc.groups.length ∧
        g.carton_number = Nat.repr (i + 1))) := by
  cases hpl : generate_pl_number db with
  | error e =>
    have heq : generate_pdf_packing_list db po0 = (db, .error e) := by
      simp only [generate_pdf_packing_list]
      rw [if_neg hpo, hpl]
    rw [heq] at h
    exact absurd (Prod.mk.injEq _ _ _ _ |>.mp h).2 (by simp)
  | ok pl =>
    by_cases hemp : packedItemsQuery db (pyStrip po0) = []
    · rw [generate_pdf_empty_eq db po0 hpo pl hpl hemp] at h
      obtain ⟨hdb, hdoc⟩ := Prod.mk.injEq _ _ _ _ |>.mp h
      have hdoc' := Except.ok.inj hdoc
      subst hdb
      refine ⟨rfl, rfl, fun i => rfl, fun _ => ⟨rfl, ?_⟩, fun hc => absurd hemp hc⟩
      rw [← hdoc']
      rfl
    · rw [generate_pdf_nonempty_eq db po0 hpo pl hpl hemp] at h
      obtain ⟨hdb, hdoc⟩ := Prod.mk.injEq _ _ _ _ |>.mp h
      have hdoc' := Except.ok.inj hdoc
      subst hdb
      have hplq : doc.pl_number = pl := by rw [← hdoc']; rfl
      have hmapped : (renumberRows (packedItemsQuery db (pyStrip po0))).map
          (fun r => r.carton_number) =
          ((packedItemsQuery db (pyStrip po0)).map (fun r => r.carton_number)).map
            (fun x => (alookup x (renumMapping (packedItemsQuery db (pyStrip po0)))).getD x) := by
        unfold renumberRows
        rw [List.map_map, List.map_map]
        rfl
      have hlen : doc.groups.length = (sortLe strLeB
          (dedupKF ((packedItemsQuery db (pyStrip po0)).map
            (fun r => r.carton_number)))).length := by
        rw [← hdoc']
        show (List.map _ (sortLe strLeB (dedupKF ((renumberRows
          (packedItemsQuery db (pyStrip po0))).map (fun r => r.carton_number))))).length = _
        rw [List.length_map, length_sortLe, hmapped,
          dedupKF_map_inj _ _ (renum_inj_on (packedItemsQuery db (pyStrip po0))),
          List.length_map, length_sortLe]
      refine ⟨rfl, rfl, ?_, fun hc => absurd hc hemp, fun _ => ?_⟩
      · intro i
        show ((stampItems db.po_items (pyStrip po0) pl).get? i).map _ = _
        unfold stampItems
        rw [List.get?_map]
        cases db.po_items.get? i with
        | none => rfl
        | some r =>
          by_cases hc : r.po_number = pyStrip po0 ∧ r.packed_status = "packed"
          · simp only [Option.map_some']
            rw [if_pos hc]
          · simp only [Option.map_some']
            rw [if_neg hc]
      · refine ⟨⟨renderPLRow db (pyStrip po0) pl, rfl, by rw [hplq]; rfl, rfl⟩, ?_, hlen, ?_⟩
        · rw [hplq]
          rfl
        · intro g hg
          rw [← hdoc'] at hg
          obtain ⟨k, hk, hgk⟩ := List.mem_map.mp hg
          have hkcn : g.carton_number = k := by rw [← hgk]
          have hk' : k ∈ (renumberRows (packedItemsQuery db (pyStrip po0))).map
              (fun r => r.carton_number) := by
            rw [← mem_dedupKF, ← mem_sortLe strLeB]
            exact hk
          rw [hmapped] at hk'
          obtain ⟨c, hc, hck⟩ := List.mem_map.mp hk'
          have hcu : c ∈ sortLe strLeB (dedupKF ((packedItemsQuery db (pyStrip po0)).map
              (fun r => r.carton_number))) := by
            rw [mem_sortLe, mem_dedupKF]
            exact hc
          obtain ⟨i, hi, _, hlook⟩ := alookup_renumMapping _ c hcu
          refine ⟨i, by rw [hlen]; exact hi, ?_⟩
          rw [hkcn, ← hck, hlook]
          rfl

/-- The document the C7 witness render produces. -/
def docPacked2 : RenderedDoc :=
  { pl_number := "PL0000001", po_number := "P",
    groups := [{ carton_number := "1", carton_size := "Big Box", carton_weight := "4",
                 items := [{ carton_number := "1", item_number := "A",
                             description := "Desc A", color := "Blue", qty := "10" },
                           { carton_number := "1", item_number := "B",
                             description := "Desc B", color := "Blue", qty := "20" }] }],
    total_cartons := 1, total_items := 2, total_qty := 30 }

theorem render_renumbering_display_only_witness :
    dbRendered.cartons = dbPacked2.cartons ∧
    dbRendered.carton_items = dbPacked2.carton_items ∧
    (∀ i, (dbRendered.po_items.get? i).map
        (fun r => (r.carton_number, r.packed_status, r.item_number)) =
      (dbPacked2.po_items.get? i).map
        (fun r => (r.carton_number, r.packed_status, r.item_number))) ∧
    (packedItemsQuery dbPacked2 (pyStrip "P") = [] →
      dbRendered = dbPacked2 ∧ docPacked2.groups = []) ∧
    (packedItemsQuery dbPacked2 (pyStrip "P") ≠ [] →
      (∃ plr, dbRendered.packing_lists = dbPacked2.packing_lists ++ [plr] ∧
        plr.pl_number = docPacked2.pl_number ∧ plr.po_number = pyStrip "P") ∧
      dbRendered.po_items = stampItems dbPacked2.po_items (pyStrip "P") docPacked2.pl_number ∧
      docPacked2.groups.length = (sortLe strLeB
        (dedupKF ((packedItemsQuery dbPacked2 (pyStrip "P")).map
          (fun r => r.carton_number)))).length ∧
      (∀ g ∈ docPacked2.groups, ∃ i, i < docPacked2.groups.length ∧
        g.carton_number = Nat.repr (i + 1))) :=
  render_renumbering_display_only dbPacked2 "P" dbRendered docPacked2 (by decide) (by decide)

/-! ### C10: auxiliary lemmas -/

theorem string_data_append (a b : String) : (a ++ b).data = a.data ++ b.data := rfl

theorem dropWhile_eq_self_of_none (p : Char → Bool) (l : List Char)
    (h : ∀ c ∈ l, p c = false) : l.dropWhile p = l := by
  cases l with
  | nil => rfl
  | cons x xs =>
    rw [List.dropWhile_cons, if_neg (by rw [h x (List.mem_cons_self _ _)]; simp)]

theorem pyStrip_of_no_space (s : String)
    (h : ∀ c ∈ s.data, isSpaceChar c = false) : pyStrip s = s := by
  unfold pyStrip
  rw [dropWhile_eq_self_of_none _ _ h]
  rw [dropWhile_eq_self_of_none _ _ (fun c hc => h c (List.mem_reverse.mp hc))]
  rw [List.reverse_reverse]

theorem digitChar_not_space {n : Nat} (h : n < 10) :
    isSpaceChar (Nat.digitChar n) = false := by
  interval_cases n <;> rfl

theorem decChars_no_space (n : Nat) : ∀ c ∈ decChars n, isSpaceChar c = false := by
  induction n using Nat.strong_induction_on with
  | _ n ih =>
    intro c hc
    by_cases h : n < 10
    · rw [decChars, dif_pos h] at hc
      rcases List.mem_cons.mp hc with hc | hc
      · exact hc ▸ digitChar_not_space h
      · cases hc
    · rw [decChars, dif_neg h] at hc
      rcases List.mem_append.mp hc with hc | hc
      · exact ih (n / 10) (Nat.div_lt_self (by omega) (by omega)) c hc
      · rcases List.mem_cons.mp hc with hc | hc
        · exact hc ▸ digitChar_not_space (Nat.mod_lt n (by omega))
        · cases hc

theorem natRepr_no_space (n : Nat) : ∀ c ∈ (Nat.repr n).data, isSpaceChar c = false := by
  rw [nat_repr_eq_decChars]
  exact decChars_no_space n

theorem padZeros_no_space (w : Nat) (s : String)
    (h : ∀ c ∈ s.data, isSpaceChar c = false) :
    ∀ c ∈ (padZeros w s).data, isSpaceChar c = false := by
  intro c hc
  unfold padZeros at hc
  by_cases hlen : s.data.length < w
  · rw [if_pos hlen] at hc
    rw [string_data_append] at hc
    rcases List.mem_append.mp hc with hc | hc
    · have := List.eq_of_mem_replicate hc
      rw [this]
      rfl
    · exact h c hc
  · rw [if_neg hlen] at hc
    exact h c hc

theorem plFormat_no_space (v : Int) : ∀ c ∈ (plFormat v).data, isSpaceChar c = false := by
  intro c hc
  unfold plFormat at hc
  by_cases hv : v < 0
  · rw [if_pos hv] at hc
    rw [string_data_append, string_data_append] at hc
    rcases List.mem_append.mp hc with hc | hc
    · rw [show ("PL" : String).data ++ ("-" : String).data = ['P', 'L', '-'] from rfl] at hc
      simp only [List.mem_cons, List.not_mem_nil, or_false] at hc
      rcases hc with rfl | rfl | rfl <;> rfl
    · exact padZeros_no_space 6 _ (natRepr_no_space _) c hc
  · rw [if_neg hv] at hc
    rw [string_data_append] at hc
    rcases List.mem_append.mp hc with hc | hc
    · rw [show ("PL" : String).data = ['P', 'L'] from rfl] at hc
      simp only [List.mem_cons, List.not_mem_nil, or_false] at hc
      rcases hc with rfl | rfl <;> rfl
    · exact padZeros_no_space 7 _ (natRepr_no_space _) c hc

theorem pyStrip_plFormat (v : Int) : pyStrip (plFormat v) = plFormat v :=
  pyStrip_of_no_space _ (plFormat_no_space v)

theorem plFormat_ne_empty (v : Int) : plFormat v ≠ "" := by
  intro hc
  have hdata := congrArg String.data hc
  unfold plFormat at hdata
  by_cases hv : v < 0
  · rw [if_pos hv, string_data_append, string_data_append] at hdata
    simp at hdata
  · rw [if_neg hv, string_data_append] at hdata
    simp at hdata

/-- A `pl_number` produced by `generate_pl_number` survives `strip()` and is
non-empty. -/
theorem generate_pl_number_shape (db : DB) (pl : String)
    (h : generate_pl_number db = .ok pl) : pyStrip pl = pl ∧ pl ≠ "" := by
  unfold generate_pl_number at h
  split at h
  · have hpl := Except.ok.inj h
    rw [← hpl]
    exact ⟨pyStrip_plFormat 1, plFormat_ne_empty 1⟩
  · split at h
    · have hpl := Except.ok.inj h
      rw [← hpl]
      exact ⟨pyStrip_plFormat 1, plFormat_ne_empty 1⟩
    · split at h
      · cases h
      · have hpl := Except.ok.inj h
        rw [← hpl]
        exact ⟨pyStrip_plFormat _, plFormat_ne_empty _⟩

theorem find?_append_first_none {α : Type} (p : α → Bool) (l1 l2 : List α)
    (h : ∀ a ∈ l1, p a = false) : (l1 ++ l2).find? p = l2.find? p := by
  induction l1 with
  | nil => rfl
  | cons x xs ih =>
    rw [List.cons_append, List.find?]
    rw [h x (List.mem_cons_self _ _)]
    exact ih (fun a ha => h a (List.mem_cons_of_mem _ ha))

/-- The download query over the freshly stamped ledger returns exactly the
stamped copies of the PO's packed rows. -/
theorem filter_stamped (l : List ItemRow) (po pl : String)
    (hfresh : ∀ r ∈ l, r.pl_number ≠ some pl) :
    (stampItems l po pl).filter (fun r =>
        decide (r.pl_number = some pl) && decide (r.packed_status = "packed")) =
      (l.filter (fun r =>
        decide (r.po_number = po) && decide (r.packed_status = "packed"))).map
          (fun r => { r with pl_number := some pl }) := by
  induction l with
  | nil => rfl
  | cons r rs ih =>
    have hfr := hfresh r (List.mem_cons_self _ _)
    have hfresh' : ∀ x ∈ rs, x.pl_number ≠ some pl :=
      fun x hx => hfresh x (List.mem_cons_of_mem _ hx)
    unfold stampItems
    rw [List.map_cons, List.filter_cons, List.filter_cons]
    by_cases hc : r.po_number = po ∧ r.packed_status = "packed"
    · rw [if_pos hc]
      have hcond : (decide (({ r with pl_number := some pl } : ItemRow).pl_number = some pl) &&
          decide (({ r with pl_number := some pl } : ItemRow).packed_status = "packed")) =
          true := by
        simp [hc.2]
      rw [if_pos hcond]
      have hcond2 : (decide (r.po_number = po) && decide (r.packed_status = "packed")) = true := by
        simp [hc.1, hc.2]
      rw [if_pos hcond2, List.map_cons]
      have := ih hfresh'
      unfold stampItems at this
      rw [this]
    · rw [if_neg hc]
      have hcond : (decide (r.pl_number = some pl) &&
          decide (r.packed_status = "packed")) = false := by
        simp [hfr]
      rw [if_neg (by rw [hcond]; simp)]
      have hcond2 : (decide (r.po_number = po) && decide (r.packed_status = "packed")) =
          false := by
        by_cases h1 : r.po_number = po
        · have h2 : ¬ r.packed_status = "packed" := fun h2 => hc ⟨h1, h2⟩
          simp [h2]
        · simp [h1]
      rw [if_neg (by rw [hcond2]; simp)]
      have := ih hfresh'
      unfold stampItems at this
      rw [this]

theorem renumber_dedup_length (rows : List PackedRow) :
    (dedupKF ((renumberRows rows).map (fun r => r.carton_number))).length =
      (dedupKF (rows.map (fun r => r.carton_number))).length := by
  have hmapped : (renumberRows rows).map (fun r => r.carton_number) =
      (rows.map (fun r => r.carton_number)).map
        (fun x => (alookup x (renumMapping rows)).getD x) := by
    unfold renumberRows
    rw [List.map_map, List.map_map]
    rfl
  rw [hmapped, dedupKF_map_inj _ _ (renum_inj_on rows), List.length_map]

theorem qtyTotal_renumber (rows : List PackedRow) :
    qtyTotal (renumberRows rows) = qtyTotal rows := by
  unfold qtyTotal renumberRows
  rw [List.foldl_map]

/-! ### C10 -/

/-- C10 counterexample: re-fetching by `pl_number` does *not* reproduce the
original render's carton numbering.  The original render displayed the dense
number `"1"`; the re-fetch displays the stored carton number `"2"`. -/
theorem refetch_shows_stored_numbering :
    ((generate_pdf_packing_list dbPacked2 "P").2.map
      (fun d => d.groups.map (fun g => g.carton_number))) = .ok ["1"] ∧
    ((download_pdf_by_pl dbRendered "PL0000001").map
      (fun d => d.groups.map (fun g => g.carton_number))) = .ok ["2"] := by decide

/-- The displayed carton numbers of a rendered document are exactly the sorted
distinct carton numbers of its input rows. -/
theorem groups_map_carton_number (po : String) (rows : List PackedRow)
    (details : List (String × String × String)) (pl : String) :
    (generate_professional_packing_list_html po rows details pl).groups.map
      (fun g => g.carton_number) =
      sortLe strLeB (dedupKF (rows.map (fun r => r.carton_number))) := by
  unfold generate_professional_packing_list_html
  generalize sortLe strLeB (dedupKF (rows.map (fun r => r.carton_number))) = keys
  induction keys with
  | nil => rfl
  | cons k ks ih =>
    simp only [List.map_cons]
    rw [ih]

/-- C10 (amended): re-fetching a just-rendered packing list by its `pl_number`
is read-only — it allocates no new `pl_number` and performs no renumbering or
any other write — and reproduces the original render's three totals (carton
count, item count, total quantity) from the stamped rows, but it displays the
*stored* carton numbers (the distinct stored values in ascending order), not
the dense renumbering the original render displayed. -/
theorem download_by_pl_read_only_same_totals (db : DB) (po0 : String) (db' : DB)
    (doc : RenderedDoc) (hpo : pyStrip po0 ≠ "")
    (h : generate_pdf_packing_list db po0 = (db', .ok doc))
    (hne : packedItemsQuery db (pyStrip po0) ≠ [])
    (hplfresh : ∀ p ∈ db.packing_lists, p.pl_number ≠ doc.pl_number)
    (hitemfresh : ∀ r ∈ db.po_items, r.pl_number ≠ some doc.pl_number)
    (hsome : ∀ r ∈ db.po_items, r.po_number = pyStrip po0 → r.packed_status = "packed" →
      r.carton_number.isSome) :
    ∃ doc2, download_pdf_by_pl db' doc.pl_number = .ok doc2 ∧
      doc2.pl_number = doc.pl_number ∧
      doc2.po_number = pyStrip po0 ∧
      doc2.total_items = doc.total_items ∧
      doc2.total_qty = doc.total_qty ∧
      doc2.total_cartons = doc.total_cartons ∧
      doc2.groups.map (fun g => g.carton_number) =
        sortLe strLeB (dedupKF ((packedItemsQuery db (pyStrip po0)).map
          (fun r => r.carton_number))) := by
  cases hplgen : generate_pl_number db with
  | error e =>
    have heq : generate_pdf_packing_list db po0 = (db, .error e) := by
      simp only [generate_pdf_packing_list]
      rw [if_neg hpo, hplgen]
    rw [heq] at h
    exact absurd (Prod.mk.injEq _ _ _ _ |>.mp h).2 (by simp)
  | ok pl =>
    rw [generate_pdf_nonempty_eq db po0 hpo pl hplgen hne] at h
    obtain ⟨hdb, hdoc⟩ := Prod.mk.injEq _ _ _ _ |>.mp h
    have hdoc' := Except.ok.inj hdoc
    subst hdb
    have hplq : doc.pl_number = pl := by rw [← hdoc']; rfl
    obtain ⟨hstrip, hplne⟩ := generate_pl_number_shape db pl hplgen
    -- the freshly written packing-list row is found, all older rows missing it
    have hfind : (renderDB db (pyStrip po0) pl).packing_lists.find?
        (fun p => decide (p.pl_number = pl)) = some (renderPLRow db (pyStrip po0) pl) := by
      have hrows : (renderDB db (pyStrip po0) pl).packing_lists =
          db.packing_lists ++ [renderPLRow db (pyStrip po0) pl] := rfl
      rw [hrows, find?_append_first_none _ _ _ (fun p hp => by
        have := hplfresh p hp
        rw [hplq] at this
        simp [this])]
      have hhit : (decide ((renderPLRow db (pyStrip po0) pl).pl_number = pl) : Bool) = true := by
        simp [renderPLRow]
      rw [List.find?]
      rw [hhit]
    -- the stamped rows the download reads back are the render's input rows
    have hfilters : db.po_items.filter (fun r =>
        decide (r.po_number = pyStrip po0) && decide (r.packed_status = "packed")) =
        db.po_items.filter (fun r =>
          decide (r.po_number = pyStrip po0) && decide (r.packed_status = "packed") &&
            r.carton_number.isSome) := by
      apply List.filter_congr
      intro r hr
      by_cases h1 : r.po_number = pyStrip po0
      · by_cases h2 : r.packed_status = "packed"
        · have h3 := hsome r hr h1 h2
          simp [h1, h2, h3]
        · simp [h2]
      · simp [h1]
    have hdlrows : sortLe rowLe (((renderDB db (pyStrip po0) pl).po_items.filter (fun r =>
          decide (r.pl_number = some pl) && decide (r.packed_status = "packed"))).map
        (fun r => ({ carton_number := r.carton_number.getD "", item_number := r.item_number,
                     description := r.description, color := r.color,
                     qty := r.qty } : PackedRow))) = packedItemsQuery db (pyStrip po0) := by
      have hpo_items : (renderDB db (pyStrip po0) pl).po_items =
          stampItems db.po_items (pyStrip po0) pl := rfl
      rw [hpo_items, filter_stamped db.po_items (pyStrip po0) pl (fun r hr => by
        have := hitemfresh r hr
        rw [hplq] at this
        exact this)]
      rw [List.map_map, hfilters]
      rfl
    refine ⟨generate_professional_packing_list_html
        (renderPLRow db (pyStrip po0) pl).po_number (packedItemsQuery db (pyStrip po0))
        ((dedupKF ((packedItemsQuery db (pyStrip po0)).map (fun r => r.carton_number))).map
          (fun c => (c, "Medium", "2.5"))) pl, ?_, ?_, rfl, ?_, ?_, ?_, ?_⟩
    · show download_pdf_by_pl (renderDB db (pyStrip po0) pl) doc.pl_number = _
      rw [hplq]
      simp only [download_pdf_by_pl]
      rw [hstrip, if_neg hplne, hfind]
      rw [hdlrows]
    · rw [hplq]
      rfl
    · rw [← hdoc']
      show (packedItemsQuery db (pyStrip po0)).length =
        (renumberRows (packedItemsQuery db (pyStrip po0))).length
      unfold renumberRows
      rw [List.length_map]
    · rw [← hdoc']
      show qtyTotal (packedItemsQuery db (pyStrip po0)) =
        qtyTotal (renumberRows (packedItemsQuery db (pyStrip po0)))
      rw [qtyTotal_renumber]
    · rw [← hdoc']
      show (dedupKF ((packedItemsQuery db (pyStrip po0)).map (fun r => r.carton_number))).length =
        (dedupKF ((renumberRows (packedItemsQuery db (pyStrip po0))).map
          (fun r => r.carton_number))).length
      rw [renumber_dedup_length]
    · exact groups_map_carton_number _ _ _ _

theorem download_by_pl_read_only_witness :
    ∃ doc2, download_pdf_by_pl dbRendered docPacked2.pl_number = .ok doc2 ∧
      doc2.pl_number = docPacked2.pl_number ∧
      doc2.po_number = pyStrip "P" ∧
      doc2.total_items = docPacked2.total_items ∧
      doc2.total_qty = docPacked2.total_qty ∧
      doc2.total_cartons = docPacked2.total_cartons ∧
      doc2.groups.map (fun g => g.carton_number) =
        sortLe strLeB (dedupKF ((packedItemsQuery dbPacked2 (pyStrip "P")).map
          (fun r => r.carton_number))) :=
  download_by_pl_read_only_same_totals dbPacked2 "P" dbRendered docPacked2
    (by decide) (by decide) (by decide) (by decide) (by decide) (by decide)

end SmartApp
